import Mathlib

/-!
kmscube, gst-decoder.c: the decoder session, its frame importer and its element tuner.

A shallow embedding of `src/gst-decoder.c`.  The decoder session (`struct decoder`) is
a record; every C function that changes it becomes a function returning the new record.
Calls into GStreamer, GBM, EGL and libc are side effects: each function of the model
returns, next to its result, the list of the calls it made, in program order
(`Effect`).  What the outside world answers to a call (the value of `dup`, the
descriptor of the GBM buffer, the image of `eglCreateImageKHR`) is an input of the
model (`Sys`).

Pointers and handles are natural numbers, `0` being `NULL` (`EGL_NO_IMAGE_KHR` is the
null handle).  C arrays that the code fills in a loop (`planes[]`, `attr[]`) are kept
as the list of stores the loop performs, index and value, so that the indices written
can be compared with the declared size of the array.
-/

namespace GstDecoder

/-! ## Constants -/

/-- The `#define MAX_NUM_PLANES 3` of gst-decoder.c. -/
def MAX_NUM_PLANES : Nat := 3

/-- An `EGLImage` handle; `0` is `NULL`. -/
abbrev EGLImage := Nat

/-- The null image, `EGL_NO_IMAGE_KHR`. -/
def EGL_NO_IMAGE_KHR : EGLImage := 0

/-- The constant `EGL_NONE` of EGL/egl.h. -/
def EGL_NONE : Int := 0x3038
/-- The constant `EGL_HEIGHT` of EGL/egl.h. -/
def EGL_HEIGHT : Int := 0x3056
/-- The constant `EGL_WIDTH` of EGL/egl.h. -/
def EGL_WIDTH : Int := 0x3057
/-- The constant `EGL_LINUX_DRM_FOURCC_EXT` of EGL/eglext.h. -/
def EGL_LINUX_DRM_FOURCC_EXT : Int := 0x3271
/-- The constant `EGL_DMA_BUF_PLANE0_FD_EXT` of EGL/eglext.h. -/
def EGL_DMA_BUF_PLANE0_FD_EXT : Int := 0x3272
/-- The constant `EGL_DMA_BUF_PLANE0_OFFSET_EXT` of EGL/eglext.h. -/
def EGL_DMA_BUF_PLANE0_OFFSET_EXT : Int := 0x3273
/-- The constant `EGL_DMA_BUF_PLANE0_PITCH_EXT` of EGL/eglext.h. -/
def EGL_DMA_BUF_PLANE0_PITCH_EXT : Int := 0x3274
/-- The constant `EGL_DMA_BUF_PLANE1_FD_EXT` of EGL/eglext.h. -/
def EGL_DMA_BUF_PLANE1_FD_EXT : Int := 0x3275
/-- The constant `EGL_DMA_BUF_PLANE1_OFFSET_EXT` of EGL/eglext.h. -/
def EGL_DMA_BUF_PLANE1_OFFSET_EXT : Int := 0x3276
/-- The constant `EGL_DMA_BUF_PLANE1_PITCH_EXT` of EGL/eglext.h. -/
def EGL_DMA_BUF_PLANE1_PITCH_EXT : Int := 0x3277
/-- The constant `EGL_DMA_BUF_PLANE2_FD_EXT` of EGL/eglext.h. -/
def EGL_DMA_BUF_PLANE2_FD_EXT : Int := 0x3278
/-- The constant `EGL_DMA_BUF_PLANE2_OFFSET_EXT` of EGL/eglext.h. -/
def EGL_DMA_BUF_PLANE2_OFFSET_EXT : Int := 0x3279
/-- The constant `EGL_DMA_BUF_PLANE2_PITCH_EXT` of EGL/eglext.h. -/
def EGL_DMA_BUF_PLANE2_PITCH_EXT : Int := 0x327A

/-- The macro `fourcc_code(a, b, c, d)` of drm_fourcc.h. -/
def fourcc_code (a b c d : Char) : Nat :=
  a.toNat ||| (b.toNat <<< 8) ||| (c.toNat <<< 16) ||| (d.toNat <<< 24)

/-- The constant `DRM_FORMAT_YUV420` of drm_fourcc.h: `fourcc_code('Y', 'U', '1', '2')`. -/
def DRM_FORMAT_YUV420 : Nat := 0x32315559
/-- The constant `DRM_FORMAT_NV12` of drm_fourcc.h: `fourcc_code('N', 'V', '1', '2')`. -/
def DRM_FORMAT_NV12 : Nat := 0x3231564E
/-- The constant `DRM_FORMAT_YUYV` of drm_fourcc.h: `fourcc_code('Y', 'U', 'Y', 'V')`. -/
def DRM_FORMAT_YUYV : Nat := 0x56595559

/-! ## GStreamer data, as far as gst-decoder.c reads it -/

/-- The enumeration `GstVideoFormat`: the three formats pad_probe knows, some of the
others by name, and `other n` for the rest of the enumeration. -/
inductive GstVideoFormat
  | UNKNOWN
  | ENCODED
  | I420
  | YV12
  | YUY2
  | UYVY
  | NV12
  | A420
  | other (n : Nat)
  deriving DecidableEq, Repr

/-- The negotiated `GstVideoInfo`, with the fields gst-decoder.c reads through the
`GST_VIDEO_INFO_*` accessors: pixel format, width, height, plane count and the
per-plane offset and stride arrays (GStreamer declares four entries each). The type
is declared in the GStreamer headers; its fields are taken as the C integers the code
assigns them to. -/
structure GstVideoInfo where
  format : GstVideoFormat
  width : Int
  height : Int
  n_planes : Nat
  offset : List Int
  stride : List Int
  deriving DecidableEq, Repr

/-- Accessor `GST_VIDEO_INFO_FORMAT`. -/
def GST_VIDEO_INFO_FORMAT (i : GstVideoInfo) : GstVideoFormat := i.format
/-- Accessor `GST_VIDEO_INFO_WIDTH`. -/
def GST_VIDEO_INFO_WIDTH (i : GstVideoInfo) : Int := i.width
/-- Accessor `GST_VIDEO_INFO_HEIGHT`. -/
def GST_VIDEO_INFO_HEIGHT (i : GstVideoInfo) : Int := i.height
/-- Accessor `GST_VIDEO_INFO_N_PLANES`. -/
def GST_VIDEO_INFO_N_PLANES (i : GstVideoInfo) : Nat := i.n_planes
/-- Accessor `GST_VIDEO_INFO_PLANE_OFFSET`. -/
def GST_VIDEO_INFO_PLANE_OFFSET (i : GstVideoInfo) (p : Nat) : Int := i.offset.getD p 0
/-- Accessor `GST_VIDEO_INFO_PLANE_STRIDE`. -/
def GST_VIDEO_INFO_PLANE_STRIDE (i : GstVideoInfo) (p : Nat) : Int := i.stride.getD p 0

/-- The `GstVideoMeta` attached to a buffer: its per-plane offset and stride arrays
(four entries each), taken as the C integers the code assigns them to. -/
structure GstVideoMeta where
  offset : List Int
  stride : List Int
  deriving DecidableEq, Repr

/-- One `GstMemory` block of a buffer: whether `gst_is_dmabuf_memory` holds of it, the
descriptor `gst_dmabuf_memory_get_fd` returns for it, and its size in bytes. -/
structure GstMemory where
  is_dmabuf : Bool
  fd : Int
  size : Nat
  deriving DecidableEq, Repr

/-- A `GstBuffer`: its video meta, if it carries one, and its memory blocks. -/
structure GstBuffer where
  video_meta : Option GstVideoMeta
  mems : List GstMemory
  deriving DecidableEq, Repr

/-- The call `gst_buffer_get_video_meta(buf)`. -/
def gst_buffer_get_video_meta (buf : GstBuffer) : Option GstVideoMeta := buf.video_meta
/-- The call `gst_buffer_n_memory(buf)`. -/
def gst_buffer_n_memory (buf : GstBuffer) : Nat := buf.mems.length
/-- The call `gst_buffer_peek_memory(buf, idx)`; `none` is `NULL`. -/
def gst_buffer_peek_memory (buf : GstBuffer) (idx : Nat) : Option GstMemory := buf.mems.get? idx
/-- The call `gst_is_dmabuf_memory(mem)`; false on `NULL`. -/
def gst_is_dmabuf_memory (mem : Option GstMemory) : Bool :=
  match mem with
  | some m => m.is_dmabuf
  | none => false
/-- The call `gst_dmabuf_memory_get_fd(mem)`; -1 on `NULL`. -/
def gst_dmabuf_memory_get_fd (mem : Option GstMemory) : Int :=
  match mem with
  | some m => m.fd
  | none => -1
/-- The size `map_info.size` that `gst_buffer_map` reports: all blocks merged. -/
def gst_buffer_map_size (buf : GstBuffer) : Nat := (buf.mems.map GstMemory.size).sum

/-- A `GstSample` as the appsink hands it out: its address (`0` is `NULL`) and the
buffer `gst_sample_get_buffer` returns. -/
structure GstSample where
  ptr : Nat
  buffer : GstBuffer
  deriving DecidableEq, Repr

/-- The caps of a caps event, given by what `gst_video_info_from_caps(&dec->info, caps)`
makes of them: from the contents of `dec->info` before the call, the returned boolean
and the contents of `dec->info` after the call. -/
structure GstCaps where
  video_info_from_caps : GstVideoInfo → Bool × GstVideoInfo

/-- The call `gst_video_info_from_caps(info, caps)`. -/
def gst_video_info_from_caps (info : GstVideoInfo) (caps : GstCaps) : Bool × GstVideoInfo :=
  caps.video_info_from_caps info

/-- A downstream event seen by the pad probe: a caps event, with the caps pointer that
`gst_event_parse_caps` yields (`none` is `NULL`), or an event of another type. -/
inductive GstEvent
  | caps (c : Option GstCaps)
  | other (type : Nat)

/-- The enumeration `GstPadProbeReturn`. -/
inductive GstPadProbeReturn
  | GST_PAD_PROBE_DROP
  | GST_PAD_PROBE_OK
  | GST_PAD_PROBE_REMOVE
  | GST_PAD_PROBE_PASS
  | GST_PAD_PROBE_HANDLED
  deriving DecidableEq, Repr

/-! ## The session -/

/-- The `struct decoder`. `loop`, `gst_thread`, `gbm` and `egl` are fixed at creation
and only passed on; of them the model keeps the handles `pipeline` and `sink`. -/
structure decoder where
  pipeline : Nat
  sink : Nat
  format : Nat
  info : GstVideoInfo
  frame : Nat
  last_frame : EGLImage
  last_samp : Nat
  deriving DecidableEq, Repr

/-- The answers of the outside world during one call of video_frame: the value `dup`
returns for a descriptor, the descriptor `gbm_bo_get_fd` returns for the buffer object
that buf_to_fd fills, and the image `eglCreateImageKHR` returns for an attribute
list. -/
structure Sys where
  dup : Int → Int
  gbm_bo_get_fd : Int
  eglCreateImageKHR : List Int → EGLImage

/-- The calls with a side effect that the modelled functions make. `close none` is a
`close` of a `planes[i].fd` that this call of buffer_to_image never stored. -/
inductive Effect
  | gst_debug_no_sample
  | gst_fixme_multiple_dmabuf
  | gst_error_no_fd
  | dup (fd ret : Int)
  | gbm_bo_create (size : Nat)
  | memcpy (size : Nat)
  | gbm_bo_get_fd (ret : Int)
  | print_stream_information (width height : Int) (pixfmt : GstVideoFormat)
      (nplanes : Nat) (zero_copy video_meta_found : Bool)
  | eglCreateImageKHR (attr : List Int) (ret : EGLImage)
  | close (fd : Option Int)
  | eglDestroyImageKHR (image : EGLImage)
  | gst_sample_unref (samp : Nat)
  deriving DecidableEq, Repr

/-- One assignment `a[idx] = val` to a C array. -/
structure Store (α : Type) where
  idx : Nat
  val : α
  deriving DecidableEq, Repr

/-- The value of `a[i]` after the stores `s`, `none` when none of them wrote `a[i]`. -/
def load {α : Type} (s : List (Store α)) (i : Nat) : Option α :=
  (s.reverse.find? (fun st => st.idx == i)).map Store.val

/-- An element of the local array `planes[]` of buffer_to_image. -/
structure Plane where
  fd : Int
  offset : Int
  stride : Int
  deriving DecidableEq, Repr

/-! ## pad_probe -/

/-- The pad probe `pad_probe` (lines 71-111): returns the session after the event and
the value handed back to GStreamer. -/
def pad_probe (dec : decoder) (event : GstEvent) : decoder × GstPadProbeReturn :=
  match event with
  | GstEvent.other _ => (dec, GstPadProbeReturn.GST_PAD_PROBE_OK)
  | GstEvent.caps none => (dec, GstPadProbeReturn.GST_PAD_PROBE_OK)
  | GstEvent.caps (some caps) =>
    let r := gst_video_info_from_caps dec.info caps
    let dec1 : decoder := { dec with info := r.2 }
    if r.1 = false then (dec1, GstPadProbeReturn.GST_PAD_PROBE_OK)
    else
      match GST_VIDEO_INFO_FORMAT dec1.info with
      | GstVideoFormat.I420 =>
        ({ dec1 with format := DRM_FORMAT_YUV420 }, GstPadProbeReturn.GST_PAD_PROBE_OK)
      | GstVideoFormat.NV12 =>
        ({ dec1 with format := DRM_FORMAT_NV12 }, GstPadProbeReturn.GST_PAD_PROBE_OK)
      | GstVideoFormat.YUY2 =>
        ({ dec1 with format := DRM_FORMAT_YUYV }, GstPadProbeReturn.GST_PAD_PROBE_OK)
      | _ => (dec1, GstPadProbeReturn.GST_PAD_PROBE_OK)

/-! ## video_init, set_last_frame -/

/-- The `GstVideoInfo` inside a `calloc`ed `struct decoder`: all zero. -/
def zeroed_info : GstVideoInfo :=
  { format := GstVideoFormat.UNKNOWN, width := 0, height := 0, n_planes := 0,
    offset := [0, 0, 0, 0], stride := [0, 0, 0, 0] }

/-- The session `video_init` returns (lines 255-322), `none` for `NULL`: it fails when
`egl_check` misses one of the two image functions; otherwise the `calloc`ed record
with the pipeline and the sink filled in. -/
def video_init (has_eglCreateImageKHR has_eglDestroyImageKHR : Bool) (pipeline sink : Nat) :
    Option decoder :=
  if has_eglCreateImageKHR = false ∨ has_eglDestroyImageKHR = false then none
  else some { pipeline := pipeline, sink := sink, format := 0, info := zeroed_info,
              frame := 0, last_frame := 0, last_samp := 0 }

/-- The function `set_last_frame` (lines 324-333). -/
def set_last_frame (dec : decoder) (frame : EGLImage) (samp : Nat) : decoder × List Effect :=
  let t1 := if dec.last_frame ≠ 0 then [Effect.eglDestroyImageKHR dec.last_frame] else []
  let dec1 : decoder := { dec with last_frame := frame }
  let t2 := if dec1.last_samp ≠ 0 then [Effect.gst_sample_unref dec1.last_samp] else []
  ({ dec1 with last_samp := samp }, t1 ++ t2)

/-! ## buf_to_fd, buffer_to_image -/

/-- The function `buf_to_fd` (lines 336-359): creates a linear buffer object of `size`
bytes, copies the mapped bytes into it and returns its descriptor. -/
def buf_to_fd (sys : Sys) (size : Nat) : Int × List Effect :=
  (sys.gbm_bo_get_fd,
   [Effect.gbm_bo_create size, Effect.memcpy size, Effect.gbm_bo_get_fd sys.gbm_bo_get_fd])

/-- The table `egl_dmabuf_plane_fd_attr` (lines 375-379). -/
def egl_dmabuf_plane_fd_attr : List Int :=
  [EGL_DMA_BUF_PLANE0_FD_EXT, EGL_DMA_BUF_PLANE1_FD_EXT, EGL_DMA_BUF_PLANE2_FD_EXT]
/-- The table `egl_dmabuf_plane_offset_attr` (lines 380-384). -/
def egl_dmabuf_plane_offset_attr : List Int :=
  [EGL_DMA_BUF_PLANE0_OFFSET_EXT, EGL_DMA_BUF_PLANE1_OFFSET_EXT, EGL_DMA_BUF_PLANE2_OFFSET_EXT]
/-- The table `egl_dmabuf_plane_pitch_attr` (lines 385-389). -/
def egl_dmabuf_plane_pitch_attr : List Int :=
  [EGL_DMA_BUF_PLANE0_PITCH_EXT, EGL_DMA_BUF_PLANE1_PITCH_EXT, EGL_DMA_BUF_PLANE2_PITCH_EXT]

/-- Lines 411-418 of buffer_to_image: the descriptor for the buffer, by `dup` of the
DMA-BUF descriptor of block 0 or by a copy through buf_to_fd. -/
def obtain_dmabuf_fd (sys : Sys) (buf : GstBuffer) : Int × List Effect :=
  let mem := gst_buffer_peek_memory buf 0
  if gst_is_dmabuf_memory mem = true then
    let fd := gst_dmabuf_memory_get_fd mem
    (sys.dup fd, [Effect.dup fd (sys.dup fd)])
  else
    buf_to_fd sys (gst_buffer_map_size buf)

/-- Lines 434-446 of buffer_to_image: the stores to `planes[]`, from the video meta
when the buffer has one, from the negotiated info otherwise. -/
def fill_planes (info : GstVideoInfo) (video_meta : Option GstVideoMeta) (nplanes : Nat)
    (dmabuf_fd : Int) : List (Store Plane) :=
  match video_meta with
  | some m =>
    (List.range nplanes).map fun i =>
      { idx := i, val := { fd := dmabuf_fd, offset := m.offset.getD i 0,
                           stride := m.stride.getD i 0 } }
  | none =>
    (List.range nplanes).map fun i =>
      { idx := i, val := { fd := dmabuf_fd, offset := GST_VIDEO_INFO_PLANE_OFFSET info i,
                           stride := GST_VIDEO_INFO_PLANE_STRIDE info i } }

/-- The value read from `planes[i]`; the `0` entries stand for an element that was
never stored. -/
def plane_at (planes : List (Store Plane)) (i : Nat) : Plane :=
  (load planes i).getD { fd := 0, offset := 0, stride := 0 }

/-- Lines 471-475 of buffer_to_image: the initialiser of `attr[6 + 6*MAX_NUM_PLANES + 1]`,
six given values and zeros for the rest. -/
def attr_init (width height : Int) (format : Nat) : List Int :=
  [EGL_WIDTH, width, EGL_HEIGHT, height, EGL_LINUX_DRM_FOURCC_EXT, (format : Int)]
    ++ List.replicate (6 * MAX_NUM_PLANES + 1) 0

/-- Lines 477-486 of buffer_to_image: the stores to `attr[]`, six for each plane and
the terminating `EGL_NONE`. -/
def fill_attr (planes : List (Store Plane)) (nplanes : Nat) : List (Store Int) :=
  ((List.range nplanes).map fun i =>
    [ { idx := 6 + 6 * i + 0, val := egl_dmabuf_plane_fd_attr.getD i 0 },
      { idx := 6 + 6 * i + 1, val := (plane_at planes i).fd },
      { idx := 6 + 6 * i + 2, val := egl_dmabuf_plane_offset_attr.getD i 0 },
      { idx := 6 + 6 * i + 3, val := (plane_at planes i).offset },
      { idx := 6 + 6 * i + 4, val := egl_dmabuf_plane_pitch_attr.getD i 0 },
      { idx := 6 + 6 * i + 5, val := (plane_at planes i).stride } ]).flatten
    ++ [ { idx := 6 + 6 * nplanes, val := EGL_NONE } ]

/-- The contents of an array after a list of stores, starting from `init`; a store
beyond the end of the array does not show in it. -/
def apply_stores (init : List Int) (s : List (Store Int)) : List Int :=
  s.foldl (fun a st => a.set st.idx st.val) init

/-- What one call of buffer_to_image does: the image it returns, the calls it makes,
and the stores it performs to its local arrays `planes[]` and `attr[]`. -/
structure Imported where
  image : EGLImage
  trace : List Effect
  planes : List (Store Plane)
  attr : List (Store Int)
  deriving DecidableEq, Repr

/-- The function `buffer_to_image` (lines 361-497). -/
def buffer_to_image (dec : decoder) (sys : Sys) (buf : GstBuffer) : Imported :=
  let video_meta := gst_buffer_get_video_meta buf
  let nmems := gst_buffer_n_memory buf
  let nplanes := GST_VIDEO_INFO_N_PLANES dec.info
  let mem := gst_buffer_peek_memory buf 0
  let is_dmabuf_mem := gst_is_dmabuf_memory mem
  if nmems > 1 ∧ is_dmabuf_mem = true then
    { image := EGL_NO_IMAGE_KHR, trace := [Effect.gst_fixme_multiple_dmabuf],
      planes := [], attr := [] }
  else
    let got := obtain_dmabuf_fd sys buf
    let dmabuf_fd := got.1
    if dmabuf_fd < 0 then
      { image := EGL_NO_IMAGE_KHR, trace := got.2 ++ [Effect.gst_error_no_fd],
        planes := [], attr := [] }
    else
      let planes := fill_planes dec.info video_meta nplanes dmabuf_fd
      let width := GST_VIDEO_INFO_WIDTH dec.info
      let height := GST_VIDEO_INFO_HEIGHT dec.info
      let printed :=
        if dec.frame = 0 then
          [Effect.print_stream_information width height (GST_VIDEO_INFO_FORMAT dec.info)
            nplanes is_dmabuf_mem video_meta.isSome]
        else []
      let attr_stores := fill_attr planes nplanes
      let attr := apply_stores (attr_init width height dec.format) attr_stores
      let image := sys.eglCreateImageKHR attr
      let cleanup := (List.range nmems).map fun i =>
        Effect.close ((load planes i).map Plane.fd)
      { image := image,
        trace := got.2 ++ printed ++ [Effect.eglCreateImageKHR attr image] ++ cleanup,
        planes := planes, attr := attr_stores }

/-! ## video_frame, video_deinit -/

/-- One call of video_frame by the consumer: the sample `gst_app_sink_pull_sample`
returns and the answers of the outside world during the call. -/
structure Pull where
  samp : GstSample
  sys : Sys

/-- What one call of video_frame does: the session afterwards, the returned image and
the calls made. -/
structure Pulled where
  dec : decoder
  frame : EGLImage
  trace : List Effect
  deriving DecidableEq, Repr

/-- The function `video_frame` (lines 499-525). The counter `frame` is a C `unsigned`. -/
def video_frame (dec : decoder) (p : Pull) : Pulled :=
  if p.samp.ptr = 0 then
    { dec := dec, frame := 0, trace := [Effect.gst_debug_no_sample] }
  else
    let r := buffer_to_image dec p.sys p.samp.buffer
    let s := set_last_frame dec r.image p.samp.ptr
    { dec := { s.1 with frame := (s.1.frame + 1) % 2 ^ 32 },
      frame := r.image,
      trace := r.trace ++ s.2 }

/-- The part of `video_deinit` (lines 527-537) that touches the current frame:
`set_last_frame(dec, NULL, NULL)`. -/
def video_deinit (dec : decoder) : List Effect := (set_last_frame dec 0 0).2

/-! ## Reading a list of calls -/

/-- The image an effect destroys, if it is a call of eglDestroyImageKHR. -/
def destroyed_image : Effect → Option EGLImage
  | Effect.eglDestroyImageKHR i => some i
  | _ => none

/-- The images destroyed by a list of calls, in order. -/
def images_destroyed (tr : List Effect) : List EGLImage := tr.filterMap destroyed_image

/-- The sample an effect releases, if it is a call of gst_sample_unref. -/
def released_sample : Effect → Option Nat
  | Effect.gst_sample_unref s => some s
  | _ => none

/-- The samples released by a list of calls, in order. -/
def samples_released (tr : List Effect) : List Nat := tr.filterMap released_sample

/-- The attribute list and the result of an effect that is a call of
eglCreateImageKHR. -/
def created_image : Effect → Option (List Int × EGLImage)
  | Effect.eglCreateImageKHR attr ret => some (attr, ret)
  | _ => none

/-- The calls of eglCreateImageKHR in a list of calls: attribute list and result. -/
def image_creations (tr : List Effect) : List (List Int × EGLImage) :=
  tr.filterMap created_image

/-- Whether an effect is the `memcpy` of buf_to_fd. -/
def is_copy : Effect → Bool
  | Effect.memcpy _ => true
  | _ => false

/-- The number of invocations of the CPU copy in a list of calls. -/
def copy_count (tr : List Effect) : Nat := tr.countP is_copy

/-- Whether an effect is a call of `dup`. -/
def is_dup : Effect → Bool
  | Effect.dup _ _ => true
  | _ => false

/-- The number of calls of `dup` in a list of calls. -/
def dup_count (tr : List Effect) : Nat := tr.countP is_dup

/-- The descriptor an effect obtains: a non-negative result of `dup` or of
`gbm_bo_get_fd`. -/
def obtained_fd : Effect → Option Int
  | Effect.dup _ ret => if 0 ≤ ret then some ret else none
  | Effect.gbm_bo_get_fd ret => if 0 ≤ ret then some ret else none
  | _ => none

/-- The descriptors obtained by a list of calls, in order. -/
def fds_obtained (tr : List Effect) : List Int := tr.filterMap obtained_fd

/-- The argument of an effect that is a call of `close`. -/
def closed_fd : Effect → Option (Option Int)
  | Effect.close fd => some fd
  | _ => none

/-- The arguments of the calls of `close` in a list of calls, in order; `none` is a
value that was never stored. -/
def fds_closed (tr : List Effect) : List (Option Int) := tr.filterMap closed_fd

/-- The images that are live (created and not yet destroyed) after one more call. -/
def live_step (live : List EGLImage) (e : Effect) : List EGLImage :=
  match e with
  | Effect.eglCreateImageKHR _ ret => if ret = 0 then live else live ++ [ret]
  | Effect.eglDestroyImageKHR i => live.erase i
  | _ => live

/-- The images that are live after a list of calls, given the ones live before. -/
def live_images (live : List EGLImage) (tr : List Effect) : List EGLImage :=
  tr.foldl live_step live

/-! ## A session: caps events and pulls, in the order they happen -/

/-- One step of a session: the pad probe sees an event, or the consumer calls
video_frame. -/
inductive Step
  | event (e : GstEvent)
  | pull (p : Pull)

/-- The record of one call of video_frame within a session: the session after the
call, the address of the sample that was pulled, the returned image, the calls made
during the pull, and the images live after it. -/
structure Snapshot where
  dec : decoder
  samp : Nat
  frame : EGLImage
  trace : List Effect
  live : List EGLImage
  deriving DecidableEq, Repr

/-- Runs the steps from session `dec` with the images `live`; one snapshot for every
pull, in order. -/
def run (dec : decoder) (live : List EGLImage) : List Step → List Snapshot
  | [] => []
  | Step.event e :: rest => run (pad_probe dec e).1 live rest
  | Step.pull p :: rest =>
    let r := video_frame dec p
    let l := live_images live r.trace
    { dec := r.dec, samp := p.samp.ptr, frame := r.frame, trace := r.trace, live := l }
      :: run r.dec l rest

/-- The image the session currently holds, as a list: empty when `last_frame` is
`NULL`. -/
def current_image (dec : decoder) : List EGLImage :=
  if dec.last_frame ≠ 0 then [dec.last_frame] else []

/-- The sample the session currently holds, as a list: empty when `last_samp` is
`NULL`. -/
def current_sample (dec : decoder) : List Nat :=
  if dec.last_samp ≠ 0 then [dec.last_samp] else []

/-! ## Concrete inputs -/

/-- The info of a negotiated NV12 stream of 640 x 480: two planes. -/
def info_nv12_640x480 : GstVideoInfo :=
  { format := GstVideoFormat.NV12, width := 640, height := 480, n_planes := 2,
    offset := [0, 307200, 0, 0], stride := [640, 640, 0, 0] }

/-- The info of a negotiated I420 stream of 1920 x 1080: three planes. -/
def info_i420_1920x1080 : GstVideoInfo :=
  { format := GstVideoFormat.I420, width := 1920, height := 1080, n_planes := 3,
    offset := [0, 2073600, 2592000, 0], stride := [1920, 960, 960, 0] }

/-- The info of a negotiated UYVY stream of 320 x 240: one plane, a format pad_probe
does not know. -/
def info_uyvy_320x240 : GstVideoInfo :=
  { format := GstVideoFormat.UYVY, width := 320, height := 240, n_planes := 1,
    offset := [0, 0, 0, 0], stride := [640, 0, 0, 0] }

/-- The info of a negotiated A420 stream of 64 x 64: four planes, a format pad_probe
does not know. -/
def info_a420_64x64 : GstVideoInfo :=
  { format := GstVideoFormat.A420, width := 64, height := 64, n_planes := 4,
    offset := [0, 4096, 5120, 6144], stride := [64, 32, 32, 64] }

/-- Caps that gst_video_info_from_caps parses into the given info. -/
def caps_of (i : GstVideoInfo) : GstCaps := { video_info_from_caps := fun _ => (true, i) }

/-- A session that negotiated NV12 at 640 x 480 and holds image 5 of sample 9, after
one frame. -/
def dec_nv12_holding : decoder :=
  { pipeline := 1, sink := 2, format := DRM_FORMAT_NV12, info := info_nv12_640x480,
    frame := 1, last_frame := 5, last_samp := 9 }

/-- An outside world in which `dup` returns 7, the GBM buffer has descriptor 8 and
eglCreateImageKHR returns image 42. -/
def sys_ok : Sys := { dup := fun _ => 7, gbm_bo_get_fd := 8, eglCreateImageKHR := fun _ => 42 }

/-- A buffer of one DMA-BUF block with descriptor 3, without video meta. -/
def buf_dmabuf : GstBuffer :=
  { video_meta := none, mems := [{ is_dmabuf := true, fd := 3, size := 460800 }] }

/-- A buffer of two DMA-BUF blocks, without video meta. -/
def buf_two_dmabuf : GstBuffer :=
  { video_meta := none,
    mems := [{ is_dmabuf := true, fd := 3, size := 307200 },
             { is_dmabuf := true, fd := 4, size := 153600 }] }

/-- A buffer of two blocks of ordinary memory, without video meta. -/
def buf_two_sysmem : GstBuffer :=
  { video_meta := none,
    mems := [{ is_dmabuf := false, fd := -1, size := 307200 },
             { is_dmabuf := false, fd := -1, size := 153600 }] }

/-- A buffer of one block of ordinary memory that carries a video meta with padded
strides. -/
def buf_sysmem_meta : GstBuffer :=
  { video_meta := some { offset := [0, 329728, 0, 0], stride := [704, 704, 0, 0] },
    mems := [{ is_dmabuf := false, fd := -1, size := 494592 }] }

/-- An outside world in which eglCreateImageKHR fails: it returns EGL_NO_IMAGE_KHR. -/
def sys_egl_fails : Sys :=
  { dup := fun _ => 7, gbm_bo_get_fd := 8, eglCreateImageKHR := fun _ => EGL_NO_IMAGE_KHR }

/-- A pull that obtains sample 11, whose buffer has two DMA-BUF blocks. -/
def pull_two_dmabuf : Pull := { samp := { ptr := 11, buffer := buf_two_dmabuf }, sys := sys_ok }

/-- A pull that obtains sample 12, a single DMA-BUF block, while eglCreateImageKHR
fails. -/
def pull_egl_fails : Pull := { samp := { ptr := 12, buffer := buf_dmabuf }, sys := sys_egl_fails }

/-- A pull that obtains sample 13, a single DMA-BUF block; all calls succeed. -/
def pull_dmabuf : Pull := { samp := { ptr := 13, buffer := buf_dmabuf }, sys := sys_ok }

/-- A pull that obtains sample 14, one block of ordinary memory with a video meta; all
calls succeed. -/
def pull_sysmem_meta : Pull :=
  { samp := { ptr := 14, buffer := buf_sysmem_meta }, sys := sys_ok }

/-- A pull that obtains sample 15, two blocks of ordinary memory; all calls succeed. -/
def pull_two_sysmem : Pull :=
  { samp := { ptr := 15, buffer := buf_two_sysmem }, sys := sys_ok }

/-- An outside world in which `dup` returns 17, the GBM buffer has descriptor 18 and
eglCreateImageKHR returns image 43. -/
def sys_ok_43 : Sys :=
  { dup := fun _ => 17, gbm_bo_get_fd := 18, eglCreateImageKHR := fun _ => 43 }

/-- A pull that obtains sample 16, one block of ordinary memory with a video meta;
eglCreateImageKHR returns image 43. -/
def pull_sysmem_meta_43 : Pull :=
  { samp := { ptr := 16, buffer := buf_sysmem_meta }, sys := sys_ok_43 }

/-- A freshly created session with pipeline 1 and sink 2. -/
def dec_fresh : decoder :=
  { pipeline := 1, sink := 2, format := 0, info := zeroed_info, frame := 0,
    last_frame := 0, last_samp := 0 }

/-- A session of three successful pulls: NV12 is negotiated, a DMA-BUF sample is
pulled, then a copied one, then the stream renegotiates to I420 and a third sample is
pulled. -/
def steps_three_pulls : List Step :=
  [Step.event (GstEvent.caps (some (caps_of info_nv12_640x480))),
   Step.pull pull_dmabuf,
   Step.pull pull_sysmem_meta_43,
   Step.event (GstEvent.caps (some (caps_of info_i420_1920x1080))),
   Step.pull pull_two_sysmem]

/-- The info of a negotiated YUY2 stream of 320 x 240: one plane. -/
def info_yuy2_320x240 : GstVideoInfo :=
  { format := GstVideoFormat.YUY2, width := 320, height := 240, n_planes := 1,
    offset := [0, 0, 0, 0], stride := [640, 0, 0, 0] }

/-- A session that negotiated YUY2 at 320 x 240 and holds image 5 of sample 9, after
one frame. -/
def dec_yuy2_holding : decoder :=
  { pipeline := 1, sink := 2, format := DRM_FORMAT_YUYV, info := info_yuy2_320x240,
    frame := 1, last_frame := 5, last_samp := 9 }

/-! ## The attribute list as the specification words it -/

/-- The attribute name `EGL_DMA_BUF_PLANEi_FD_EXT` of plane `i`. -/
def plane_fd_name : Nat → Int
  | 0 => EGL_DMA_BUF_PLANE0_FD_EXT
  | 1 => EGL_DMA_BUF_PLANE1_FD_EXT
  | 2 => EGL_DMA_BUF_PLANE2_FD_EXT
  | _ => 0

/-- The attribute name `EGL_DMA_BUF_PLANEi_OFFSET_EXT` of plane `i`. -/
def plane_offset_name : Nat → Int
  | 0 => EGL_DMA_BUF_PLANE0_OFFSET_EXT
  | 1 => EGL_DMA_BUF_PLANE1_OFFSET_EXT
  | 2 => EGL_DMA_BUF_PLANE2_OFFSET_EXT
  | _ => 0

/-- The attribute name `EGL_DMA_BUF_PLANEi_PITCH_EXT` of plane `i`. -/
def plane_pitch_name : Nat → Int
  | 0 => EGL_DMA_BUF_PLANE0_PITCH_EXT
  | 1 => EGL_DMA_BUF_PLANE1_PITCH_EXT
  | 2 => EGL_DMA_BUF_PLANE2_PITCH_EXT
  | _ => 0

/-- The six attributes of plane `i` with descriptor `d`: fd, offset and pitch, each
after its name. -/
def plane_triple (i : Nat) (d : Plane) : List Int :=
  [plane_fd_name i, d.fd, plane_offset_name i, d.offset, plane_pitch_name i, d.stride]

/-- The attribute list of the specification for the plane descriptors `descs`: width,
height and fourcc, each after its name, then the attributes of every plane in order,
then `EGL_NONE`. -/
def expected_attr (width height : Int) (fourcc : Nat) (descs : List Plane) : List Int :=
  [EGL_WIDTH, width, EGL_HEIGHT, height, EGL_LINUX_DRM_FOURCC_EXT, (fourcc : Int)]
    ++ ((List.range descs.length).map fun i => plane_triple i (descs.getD i ⟨0, 0, 0⟩)).flatten
    ++ [EGL_NONE]

/-! ## The stream summary over a session -/

/-- Whether an effect is the printing of the stream summary (lines 459-465). -/
def is_summary : Effect → Bool
  | Effect.print_stream_information _ _ _ _ _ _ => true
  | _ => false

/-- The number of times a list of calls prints the stream summary. -/
def summary_count (tr : List Effect) : Nat := tr.countP is_summary

/-- The number of calls of video_frame among the steps of a session. -/
def pull_count : List Step → Nat
  | [] => 0
  | Step.event _ :: rest => pull_count rest
  | Step.pull _ :: rest => pull_count rest + 1

/-- The summaries of a session as the code prints them, one number for every pull: the
first pull that obtains a sample prints the summary once if it gets as far as calling
eglCreateImageKHR, and no other pull prints it. -/
def summary_by_first_sample : List Snapshot → List Nat
  | [] => []
  | s :: rest =>
    if s.samp = 0 then 0 :: summary_by_first_sample rest
    else (if image_creations s.trace = [] then 0 else 1) :: rest.map fun _ => 0

/-- A session in which the first sample has two DMA-BUF blocks and the second sample is
imported. -/
def steps_first_pull_unsupported : List Step :=
  [Step.event (GstEvent.caps (some (caps_of info_nv12_640x480))),
   Step.pull pull_two_dmabuf,
   Step.pull pull_dmabuf]

/-- A session in which eglCreateImageKHR fails for the first sample and the second
sample is imported. -/
def steps_first_pull_egl_fails : List Step :=
  [Step.event (GstEvent.caps (some (caps_of info_nv12_640x480))),
   Step.pull pull_egl_fails,
   Step.pull pull_dmabuf]

/-! ## element_added_cb -/

/-- A `GstElement` as element_added_cb sees it: its object name, the name of the
factory that created it, and the object arguments set on it through
gst_util_set_object_arg, latest first. -/
structure GstElement where
  name : String
  factory_name : String
  args : List (String × String)
  deriving DecidableEq, Repr

/-- Accessor `GST_OBJECT_NAME`. -/
def GST_OBJECT_NAME (element : GstElement) : String := element.name

/-- The name `gst_plugin_feature_get_name(gst_element_get_factory(element))`. -/
def gst_plugin_feature_get_name (element : GstElement) : String := element.factory_name

/-- The GLib call `g_str_has_prefix(str, prefix)`: whether `str` begins with `pre`. -/
def g_str_has_prefix (str pre : String) : Bool := pre.toList.isPrefixOf str.toList

/-- The GLib call `g_str_has_suffix(str, suffix)`: whether `str` ends with `suf`. -/
def g_str_has_suffix (str suf : String) : Bool := suf.toList.isSuffixOf str.toList

/-- The call `gst_util_set_object_arg(object, name, value)`. -/
def gst_util_set_object_arg (element : GstElement) (name value : String) : GstElement :=
  { element with args := (name, value) :: element.args }

/-- The value of the object argument `name`, `none` when it was never set. -/
def object_arg (element : GstElement) (name : String) : Option String :=
  element.args.lookup name

/-- The callback `element_added_cb` (lines 121-143): returns the element after the call
and the element names written by `printf`. -/
def element_added_cb (element : GstElement) : GstElement × List String :=
  let factory_name := gst_plugin_feature_get_name element
  if ( g_str_has_prefix factory_name "v4l2video" && g_str_has_suffix factory_name "dec") = true
  then
    (gst_util_set_object_arg element "capture-io-mode" "dmabuf", [GST_OBJECT_NAME element])
  else (element, [])

/-- The form `v4l2videoNdec` as the claim words it: the string "v4l2video", then one or
more decimal digits, then "dec". -/
def is_v4l2videoNdec (factory_name : String) : Prop :=
  ∃ digits : List Char, digits ≠ [] ∧ (∀ c ∈ digits, c.isDigit = true) ∧
    factory_name.toList = "v4l2video".toList ++ digits ++ "dec".toList

/-- An element made by the factory `v4l2video0dec`. -/
def element_v4l2video0dec : GstElement :=
  { name := "v4l2video0dec0", factory_name := "v4l2video0dec", args := [] }

/-- An element made by a factory named `v4l2video0h264dec`. -/
def element_v4l2video0h264dec : GstElement :=
  { name := "v4l2video0h264dec0", factory_name := "v4l2video0h264dec", args := [] }

/-- An element made by a factory named `v4l2videodec`. -/
def element_v4l2videodec : GstElement :=
  { name := "v4l2videodec0", factory_name := "v4l2videodec", args := [] }

/-- An element made by the factory `avdec_h264`. -/
def element_avdec_h264 : GstElement :=
  { name := "avdec_h264-0", factory_name := "avdec_h264", args := [] }

/-! ## The fourcc constants -/

/-- The three format tags are the fourcc codes drm_fourcc.h gives them. -/
theorem fourcc_values :
    DRM_FORMAT_YUV420 = fourcc_code 'Y' 'U' '1' '2' ∧
    DRM_FORMAT_NV12 = fourcc_code 'N' 'V' '1' '2' ∧
    DRM_FORMAT_YUYV = fourcc_code 'Y' 'U' 'Y' 'V' := by decide

/-! ## pad_probe: what a caps event changes -/

/-- pad_probe writes only `info` and `format`. -/
theorem pad_probe_frame_fields (dec : decoder) (ev : GstEvent) :
    (pad_probe dec ev).1.pipeline = dec.pipeline ∧ (pad_probe dec ev).1.sink = dec.sink ∧
    (pad_probe dec ev).1.frame = dec.frame ∧
    (pad_probe dec ev).1.last_frame = dec.last_frame ∧
    (pad_probe dec ev).1.last_samp = dec.last_samp := by
  cases ev with
  | other t => exact ⟨rfl, rfl, rfl, rfl, rfl⟩
  | caps c =>
    cases c with
    | none => exact ⟨rfl, rfl, rfl, rfl, rfl⟩
    | some c =>
      simp only [pad_probe]
      split
      · exact ⟨rfl, rfl, rfl, rfl, rfl⟩
      · split <;> exact ⟨rfl, rfl, rfl, rfl, rfl⟩

/-- C3, as the code has it: a caps event whose caps parse but whose pixel format is
none of I420, NV12, YUY2 leaves `dec->format` as it was, and `dec->info` holds the info
parsed from the event; nothing else in the session changes. -/
theorem pad_probe_unsupported_format (dec : decoder) (caps : GstCaps) (ni : GstVideoInfo)
    (hparse : gst_video_info_from_caps dec.info caps = (true, ni))
    (h1 : ni.format ≠ GstVideoFormat.I420) (h2 : ni.format ≠ GstVideoFormat.NV12)
    (h3 : ni.format ≠ GstVideoFormat.YUY2) :
    (pad_probe dec (GstEvent.caps (some caps))).1.format = dec.format ∧
    (pad_probe dec (GstEvent.caps (some caps))).1.info = ni ∧
    (pad_probe dec (GstEvent.caps (some caps))).1 = { dec with info := ni } := by
  simp only [pad_probe, hparse, GST_VIDEO_INFO_FORMAT]
  cases hf : ni.format <;> simp_all

/-- The theorem pad_probe_unsupported_format at a session that negotiated NV12 and
then sees caps of the UYVY format. -/
theorem pad_probe_unsupported_format_witness :
    (pad_probe dec_nv12_holding (GstEvent.caps (some (caps_of info_uyvy_320x240)))).1.format
        = DRM_FORMAT_NV12 ∧
    (pad_probe dec_nv12_holding (GstEvent.caps (some (caps_of info_uyvy_320x240)))).1.info
        = info_uyvy_320x240 ∧
    (pad_probe dec_nv12_holding (GstEvent.caps (some (caps_of info_uyvy_320x240)))).1
        = { dec_nv12_holding with info := info_uyvy_320x240 } :=
  pad_probe_unsupported_format dec_nv12_holding (caps_of info_uyvy_320x240) info_uyvy_320x240
    rfl (by decide) (by decide) (by decide)

/-- C3 as stated fails: the session negotiated NV12 at 640 x 480, the caps of the event
parse (into UYVY at 320 x 240, a format that is none of I420, NV12, YUY2), and after
pad_probe `dec->info` is no longer what it was: it holds the UYVY info. -/
theorem pad_probe_unsupported_format_changes_info :
    (gst_video_info_from_caps dec_nv12_holding.info (caps_of info_uyvy_320x240)).1 = true ∧
    (gst_video_info_from_caps dec_nv12_holding.info (caps_of info_uyvy_320x240)).2.format
      ≠ GstVideoFormat.I420 ∧
    (gst_video_info_from_caps dec_nv12_holding.info (caps_of info_uyvy_320x240)).2.format
      ≠ GstVideoFormat.NV12 ∧
    (gst_video_info_from_caps dec_nv12_holding.info (caps_of info_uyvy_320x240)).2.format
      ≠ GstVideoFormat.YUY2 ∧
    (pad_probe dec_nv12_holding (GstEvent.caps (some (caps_of info_uyvy_320x240)))).1.info
      ≠ dec_nv12_holding.info ∧
    (pad_probe dec_nv12_holding (GstEvent.caps (some (caps_of info_uyvy_320x240)))).1.info.width
      = 320 := by
  decide

/-- C9: pad_probe returns GST_PAD_PROBE_OK for every event, and for a caps event with
valid video caps the format tag afterwards depends on the parsed pixel format alone:
I420 gives DRM_FORMAT_YUV420, NV12 gives DRM_FORMAT_NV12, YUY2 gives DRM_FORMAT_YUYV,
every other pixel format keeps the previous tag. -/
theorem pad_probe_format_tag (dec : decoder) (ev : GstEvent) :
    (pad_probe dec ev).2 = GstPadProbeReturn.GST_PAD_PROBE_OK ∧
    ∀ (caps : GstCaps) (ni : GstVideoInfo), ev = GstEvent.caps (some caps) →
      gst_video_info_from_caps dec.info caps = (true, ni) →
      (ni.format = GstVideoFormat.I420 → (pad_probe dec ev).1.format = DRM_FORMAT_YUV420) ∧
      (ni.format = GstVideoFormat.NV12 → (pad_probe dec ev).1.format = DRM_FORMAT_NV12) ∧
      (ni.format = GstVideoFormat.YUY2 → (pad_probe dec ev).1.format = DRM_FORMAT_YUYV) ∧
      (ni.format ≠ GstVideoFormat.I420 → ni.format ≠ GstVideoFormat.NV12 →
        ni.format ≠ GstVideoFormat.YUY2 → (pad_probe dec ev).1.format = dec.format) := by
  constructor
  · cases ev with
    | other t => simp [pad_probe]
    | caps c =>
      cases c with
      | none => simp [pad_probe]
      | some c =>
        simp only [pad_probe]
        split
        · rfl
        · split <;> rfl
  · intro caps ni hev hparse
    subst hev
    simp only [pad_probe, hparse, GST_VIDEO_INFO_FORMAT]
    cases hf : ni.format <;> simp

/-- The theorem pad_probe_format_tag at a session that negotiated NV12 and then sees
caps of the I420 format at 1920 x 1080: the tag becomes DRM_FORMAT_YUV420. -/
theorem pad_probe_format_tag_witness :
    (pad_probe dec_nv12_holding (GstEvent.caps (some (caps_of info_i420_1920x1080)))).2
      = GstPadProbeReturn.GST_PAD_PROBE_OK ∧
    (pad_probe dec_nv12_holding (GstEvent.caps (some (caps_of info_i420_1920x1080)))).1.format
      = DRM_FORMAT_YUV420 :=
  ⟨(pad_probe_format_tag dec_nv12_holding
      (GstEvent.caps (some (caps_of info_i420_1920x1080)))).1,
   ((pad_probe_format_tag dec_nv12_holding
      (GstEvent.caps (some (caps_of info_i420_1920x1080)))).2
      (caps_of info_i420_1920x1080) info_i420_1920x1080 rfl rfl).1 rfl⟩

/-! ## buffer_to_image: its three exits -/

/-- The exit at line 403: more than one memory block, the first one DMA-BUF. -/
theorem buffer_to_image_multiple_dmabuf (dec : decoder) (sys : Sys) (buf : GstBuffer)
    (hn : gst_buffer_n_memory buf > 1)
    (hd : gst_is_dmabuf_memory (gst_buffer_peek_memory buf 0) = true) :
    buffer_to_image dec sys buf =
      { image := EGL_NO_IMAGE_KHR, trace := [Effect.gst_fixme_multiple_dmabuf],
        planes := [], attr := [] } := by
  simp [buffer_to_image, hn, hd]

/-- The exit at line 422: no descriptor could be obtained. -/
theorem buffer_to_image_no_fd (dec : decoder) (sys : Sys) (buf : GstBuffer)
    (hm : ¬ (gst_buffer_n_memory buf > 1 ∧
      gst_is_dmabuf_memory (gst_buffer_peek_memory buf 0) = true))
    (hfd : (obtain_dmabuf_fd sys buf).1 < 0) :
    buffer_to_image dec sys buf =
      { image := EGL_NO_IMAGE_KHR,
        trace := (obtain_dmabuf_fd sys buf).2 ++ [Effect.gst_error_no_fd],
        planes := [], attr := [] } := by
  simp only [buffer_to_image, if_neg hm, if_pos hfd]

/-- The exit at line 496, after the call of eglCreateImageKHR. -/
theorem buffer_to_image_import (dec : decoder) (sys : Sys) (buf : GstBuffer)
    (hm : ¬ (gst_buffer_n_memory buf > 1 ∧
      gst_is_dmabuf_memory (gst_buffer_peek_memory buf 0) = true))
    (hfd : ¬ (obtain_dmabuf_fd sys buf).1 < 0) :
    buffer_to_image dec sys buf =
      { image := sys.eglCreateImageKHR
          (apply_stores (attr_init dec.info.width dec.info.height dec.format)
            (fill_attr (fill_planes dec.info buf.video_meta dec.info.n_planes
              (obtain_dmabuf_fd sys buf).1) dec.info.n_planes)),
        trace := (obtain_dmabuf_fd sys buf).2 ++
          (if dec.frame = 0 then
            [Effect.print_stream_information dec.info.width dec.info.height dec.info.format
              dec.info.n_planes (gst_is_dmabuf_memory (gst_buffer_peek_memory buf 0))
              buf.video_meta.isSome]
           else []) ++
          [Effect.eglCreateImageKHR
            (apply_stores (attr_init dec.info.width dec.info.height dec.format)
              (fill_attr (fill_planes dec.info buf.video_meta dec.info.n_planes
                (obtain_dmabuf_fd sys buf).1) dec.info.n_planes))
            (sys.eglCreateImageKHR
              (apply_stores (attr_init dec.info.width dec.info.height dec.format)
                (fill_attr (fill_planes dec.info buf.video_meta dec.info.n_planes
                  (obtain_dmabuf_fd sys buf).1) dec.info.n_planes)))] ++
          (List.range (gst_buffer_n_memory buf)).map (fun i =>
            Effect.close ((load (fill_planes dec.info buf.video_meta dec.info.n_planes
              (obtain_dmabuf_fd sys buf).1) i).map Plane.fd)),
        planes := fill_planes dec.info buf.video_meta dec.info.n_planes
          (obtain_dmabuf_fd sys buf).1,
        attr := fill_attr (fill_planes dec.info buf.video_meta dec.info.n_planes
          (obtain_dmabuf_fd sys buf).1) dec.info.n_planes } := by
  simp only [buffer_to_image, if_neg hm, if_neg hfd, gst_buffer_get_video_meta,
    GST_VIDEO_INFO_N_PLANES, GST_VIDEO_INFO_WIDTH, GST_VIDEO_INFO_HEIGHT,
    GST_VIDEO_INFO_FORMAT]

/-- The calls obtain_dmabuf_fd makes: one `dup` for DMA-BUF memory, one copy through
buf_to_fd otherwise. -/
theorem obtain_dmabuf_fd_trace (sys : Sys) (buf : GstBuffer) :
    (gst_is_dmabuf_memory (gst_buffer_peek_memory buf 0) = true ∧
      (obtain_dmabuf_fd sys buf).2 =
        [Effect.dup (gst_dmabuf_memory_get_fd (gst_buffer_peek_memory buf 0))
          (obtain_dmabuf_fd sys buf).1]) ∨
    (gst_is_dmabuf_memory (gst_buffer_peek_memory buf 0) = false ∧
      (obtain_dmabuf_fd sys buf).2 =
        [Effect.gbm_bo_create (gst_buffer_map_size buf),
         Effect.memcpy (gst_buffer_map_size buf),
         Effect.gbm_bo_get_fd (obtain_dmabuf_fd sys buf).1]) := by
  cases h : gst_is_dmabuf_memory (gst_buffer_peek_memory buf 0)
  · right
    simp [obtain_dmabuf_fd, h, buf_to_fd]
  · left
    simp [obtain_dmabuf_fd, h]

/-! ## Reading the calls of the cleanup loop -/

/-- A `filterMap` that ignores `close` finds nothing in the cleanup loop. -/
theorem filterMap_cleanup {β : Type} (f : Effect → Option β) (g : Nat → Option Int)
    (hf : ∀ x, f (Effect.close x) = none) (l : List Nat) :
    (l.map fun i => Effect.close (g i)).filterMap f = [] := by
  induction l with
  | nil => rfl
  | cons a l ih => simp [List.filterMap_cons, hf, ih]

/-- A count that ignores `close` finds nothing in the cleanup loop. -/
theorem countP_cleanup (f : Effect → Bool) (g : Nat → Option Int)
    (hf : ∀ x, f (Effect.close x) = false) (l : List Nat) :
    (l.map fun i => Effect.close (g i)).countP f = 0 := by
  induction l with
  | nil => rfl
  | cons a l ih => simp [List.countP_cons, hf, ih]

/-- The cleanup loop neither creates nor destroys an image. -/
theorem live_images_cleanup (g : Nat → Option Int) (l : List Nat) (live : List EGLImage) :
    live_images live (l.map fun i => Effect.close (g i)) = live := by
  induction l with
  | nil => rfl
  | cons a l ih => simpa [live_images, live_step] using ih

/-- A call of buffer_to_image destroys no image and releases no sample. -/
theorem buffer_to_image_keeps_frame (dec : decoder) (sys : Sys) (buf : GstBuffer) :
    images_destroyed (buffer_to_image dec sys buf).trace = [] ∧
    samples_released (buffer_to_image dec sys buf).trace = [] := by
  by_cases hm : gst_buffer_n_memory buf > 1 ∧
      gst_is_dmabuf_memory (gst_buffer_peek_memory buf 0) = true
  · rw [buffer_to_image_multiple_dmabuf dec sys buf hm.1 hm.2]
    exact ⟨rfl, rfl⟩
  · by_cases hfd : (obtain_dmabuf_fd sys buf).1 < 0
    · rw [buffer_to_image_no_fd dec sys buf hm hfd]
      rcases obtain_dmabuf_fd_trace sys buf with ⟨_, h⟩ | ⟨_, h⟩ <;>
        simp [h, images_destroyed, samples_released, destroyed_image, released_sample]
    · rw [buffer_to_image_import dec sys buf hm hfd]
      rcases obtain_dmabuf_fd_trace sys buf with ⟨_, h⟩ | ⟨_, h⟩ <;>
        by_cases hz : dec.frame = 0 <;>
        simp [h, hz, images_destroyed, samples_released, destroyed_image, released_sample,
          List.filterMap_append, filterMap_cleanup]

/-! ## video_frame: the swap of the current frame -/

/-- What set_last_frame destroys and releases: the image and the sample the session
held, when it held one. -/
theorem set_last_frame_trace (dec : decoder) (frame : EGLImage) (samp : Nat) :
    images_destroyed (set_last_frame dec frame samp).2 = current_image dec ∧
    samples_released (set_last_frame dec frame samp).2 = current_sample dec ∧
    (set_last_frame dec frame samp).1 = { dec with last_frame := frame, last_samp := samp } := by
  by_cases h1 : dec.last_frame = 0 <;> by_cases h2 : dec.last_samp = 0 <;>
    simp [set_last_frame, current_image, current_sample, images_destroyed, samples_released,
      destroyed_image, released_sample, h1, h2]

/-- A call of video_frame that obtains a sample: the returned image is the one of
buffer_to_image, null or not; it becomes `last_frame` and the sample becomes
`last_samp`; the image and the sample held before are destroyed and released. -/
theorem video_frame_swap (dec : decoder) (p : Pull) (hs : p.samp.ptr ≠ 0) :
    (video_frame dec p).frame = (buffer_to_image dec p.sys p.samp.buffer).image ∧
    (video_frame dec p).dec.last_frame = (buffer_to_image dec p.sys p.samp.buffer).image ∧
    (video_frame dec p).dec.last_samp = p.samp.ptr ∧
    images_destroyed (video_frame dec p).trace = current_image dec ∧
    samples_released (video_frame dec p).trace = current_sample dec := by
  have hk := buffer_to_image_keeps_frame dec p.sys p.samp.buffer
  have hl := set_last_frame_trace dec (buffer_to_image dec p.sys p.samp.buffer).image p.samp.ptr
  refine ⟨?_, ?_, ?_, ?_, ?_⟩
  · simp only [video_frame, if_neg hs]
  · simp [video_frame, if_neg hs, hl.2.2]
  · simp [video_frame, if_neg hs, hl.2.2]
  · simp only [video_frame, if_neg hs, images_destroyed, List.filterMap_append] at hk hl ⊢
    rw [hk.1, hl.1, List.nil_append]
  · simp only [video_frame, if_neg hs, samples_released, List.filterMap_append] at hk hl ⊢
    rw [hk.2, hl.2.1, List.nil_append]

/-! ## C1: a pull whose import fails -/

/-- C1, as the code has it: when video_frame obtains a sample and buffer_to_image
returns EGL_NO_IMAGE_KHR, video_frame returns the null image and still swaps the current
frame: `last_frame` becomes the null image, `last_samp` becomes the pulled sample, the
image held before is destroyed and the sample held before is released (when the session
held one). -/
theorem video_frame_failed_import (dec : decoder) (p : Pull) (hs : p.samp.ptr ≠ 0)
    (hfail : (buffer_to_image dec p.sys p.samp.buffer).image = EGL_NO_IMAGE_KHR) :
    (video_frame dec p).frame = EGL_NO_IMAGE_KHR ∧
    (video_frame dec p).dec.last_frame = EGL_NO_IMAGE_KHR ∧
    (video_frame dec p).dec.last_samp = p.samp.ptr ∧
    images_destroyed (video_frame dec p).trace = current_image dec ∧
    samples_released (video_frame dec p).trace = current_sample dec := by
  have h := video_frame_swap dec p hs
  rw [hfail] at h
  exact h

/-- The theorem video_frame_failed_import at a session that holds image 5 of sample 9,
for a pull of sample 12 during which eglCreateImageKHR fails. -/
theorem video_frame_failed_import_witness :
    (video_frame dec_nv12_holding pull_egl_fails).frame = EGL_NO_IMAGE_KHR ∧
    (video_frame dec_nv12_holding pull_egl_fails).dec.last_frame = EGL_NO_IMAGE_KHR ∧
    (video_frame dec_nv12_holding pull_egl_fails).dec.last_samp = 12 ∧
    images_destroyed (video_frame dec_nv12_holding pull_egl_fails).trace = [5] ∧
    samples_released (video_frame dec_nv12_holding pull_egl_fails).trace = [9] :=
  video_frame_failed_import dec_nv12_holding pull_egl_fails (by decide) (by decide)

/-- C1 as stated fails: the session holds image 5 of sample 9; the pulled sample 11 has
two DMA-BUF blocks, so buffer_to_image returns EGL_NO_IMAGE_KHR; video_frame returns
the null image, but `last_frame` and `last_samp` do not keep their values, image 5 is
destroyed and sample 9 is released. -/
theorem video_frame_failed_import_swaps_frame :
    (buffer_to_image dec_nv12_holding pull_two_dmabuf.sys pull_two_dmabuf.samp.buffer).image
      = EGL_NO_IMAGE_KHR ∧
    (video_frame dec_nv12_holding pull_two_dmabuf).frame = EGL_NO_IMAGE_KHR ∧
    dec_nv12_holding.last_frame = 5 ∧ dec_nv12_holding.last_samp = 9 ∧
    (video_frame dec_nv12_holding pull_two_dmabuf).dec.last_frame = 0 ∧
    (video_frame dec_nv12_holding pull_two_dmabuf).dec.last_samp = 11 ∧
    images_destroyed (video_frame dec_nv12_holding pull_two_dmabuf).trace = [5] ∧
    samples_released (video_frame dec_nv12_holding pull_two_dmabuf).trace = [9] := by
  decide

/-! ## C2: one live frame over a run of successful pulls -/

/-- The live images after two lists of calls, one after the other. -/
theorem live_images_append (live : List EGLImage) (a b : List Effect) :
    live_images live (a ++ b) = live_images (live_images live a) b := by
  simp [live_images, List.foldl_append]

/-- A call of buffer_to_image adds its image to the live ones when it returns one. -/
theorem buffer_to_image_live (dec : decoder) (sys : Sys) (buf : GstBuffer)
    (live : List EGLImage) :
    live_images live (buffer_to_image dec sys buf).trace =
      if (buffer_to_image dec sys buf).image = 0 then live
      else live ++ [(buffer_to_image dec sys buf).image] := by
  by_cases hm : gst_buffer_n_memory buf > 1 ∧
      gst_is_dmabuf_memory (gst_buffer_peek_memory buf 0) = true
  · rw [buffer_to_image_multiple_dmabuf dec sys buf hm.1 hm.2]
    simp [live_images, live_step, EGL_NO_IMAGE_KHR]
  · by_cases hfd : (obtain_dmabuf_fd sys buf).1 < 0
    · rw [buffer_to_image_no_fd dec sys buf hm hfd]
      rcases obtain_dmabuf_fd_trace sys buf with ⟨_, h⟩ | ⟨_, h⟩ <;>
        simp [h, live_images, live_step, EGL_NO_IMAGE_KHR]
    · rw [buffer_to_image_import dec sys buf hm hfd]
      simp only [live_images_append, live_images_cleanup]
      rcases obtain_dmabuf_fd_trace sys buf with ⟨_, h⟩ | ⟨_, h⟩ <;>
        by_cases hz : dec.frame = 0 <;>
        simp [h, hz, live_images, live_step]

/-- The live images after set_last_frame: the image held before is gone. -/
theorem set_last_frame_live (dec : decoder) (frame : EGLImage) (samp : Nat)
    (live : List EGLImage) :
    live_images live (set_last_frame dec frame samp).2 =
      if dec.last_frame ≠ 0 then live.erase dec.last_frame else live := by
  by_cases h1 : dec.last_frame = 0 <;> by_cases h2 : dec.last_samp = 0 <;>
    simp [set_last_frame, live_images, live_step, h1, h2]

/-- After a successful call of video_frame in a session whose only live image is the
one it holds, the only live image is the one returned. -/
theorem video_frame_live (dec : decoder) (p : Pull) (hs : p.samp.ptr ≠ 0)
    (hf : (video_frame dec p).frame ≠ 0) :
    live_images (current_image dec) (video_frame dec p).trace = [(video_frame dec p).frame] := by
  have hfr := (video_frame_swap dec p hs).1
  rw [hfr] at hf ⊢
  simp only [video_frame, if_neg hs, live_images_append, buffer_to_image_live, if_neg hf,
    set_last_frame_live]
  by_cases h1 : dec.last_frame = 0
  · simp [current_image, h1]
  · simp [current_image, h1]

/-- The invariant of a run: from a session whose live images are the one it holds,
over steps whose pulls all succeed, every pull leaves exactly its own image live and
holds it; the first pull destroys and releases what the session held at the start, and
every later pull destroys the image and releases the sample of the pull before it. -/
theorem run_invariant (steps : List Step) : ∀ (dec : decoder) (live : List EGLImage),
    live = current_image dec →
    (∀ s ∈ run dec live steps, s.samp ≠ 0 ∧ s.frame ≠ 0) →
    (∀ s ∈ run dec live steps,
      s.live = [s.frame] ∧ s.dec.last_frame = s.frame ∧ s.dec.last_samp = s.samp) ∧
    (∀ s ∈ (run dec live steps).head?,
      images_destroyed s.trace = current_image dec ∧
      samples_released s.trace = current_sample dec) ∧
    List.Chain' (fun s t => images_destroyed t.trace = [s.frame] ∧
      samples_released t.trace = [s.samp]) (run dec live steps) := by
  induction steps with
  | nil =>
    intro dec live _ _
    simp [run]
  | cons st rest ih =>
    intro dec live hlive hok
    cases st with
    | event e =>
      have hf := pad_probe_frame_fields dec e
      have hci : current_image (pad_probe dec e).1 = current_image dec := by
        simp [current_image, hf.2.2.2.1]
      have hcs : current_sample (pad_probe dec e).1 = current_sample dec := by
        simp [current_sample, hf.2.2.2.2]
      have h := ih (pad_probe dec e).1 live (by rw [hci]; exact hlive) hok
      rw [hci, hcs] at h
      exact h
    | pull p =>
      simp only [run] at hok ⊢
      have hhead := hok _ (List.mem_cons_self _ _)
      have hs : p.samp.ptr ≠ 0 := hhead.1
      have hfr : (video_frame dec p).frame ≠ 0 := hhead.2
      have hsw := video_frame_swap dec p hs
      have hlv : live_images live (video_frame dec p).trace = [(video_frame dec p).frame] := by
        rw [hlive]
        exact video_frame_live dec p hs hfr
      have hlf : (video_frame dec p).dec.last_frame = (video_frame dec p).frame := by
        rw [hsw.2.1, hsw.1]
      have hci : current_image (video_frame dec p).dec = [(video_frame dec p).frame] := by
        simp [current_image, hlf, hfr]
      have hcs : current_sample (video_frame dec p).dec = [p.samp.ptr] := by
        simp [current_sample, hsw.2.2.1, hs]
      have h := ih (video_frame dec p).dec (live_images live (video_frame dec p).trace)
        (by rw [hci]; exact hlv) (fun s hmem => hok s (List.mem_cons_of_mem _ hmem))
      refine ⟨?_, ?_, ?_⟩
      · intro s hmem
        rcases List.mem_cons.mp hmem with rfl | hmem
        · exact ⟨hlv, hlf, hsw.2.2.1⟩
        · exact h.1 s hmem
      · intro s hmem
        simp only [List.head?_cons, Option.mem_def, Option.some.injEq] at hmem
        subst hmem
        exact ⟨hsw.2.2.2.1, hsw.2.2.2.2⟩
      · refine List.Chain'.cons' h.2.2 ?_
        intro t ht
        have := h.2.1 t ht
        rw [hci, hcs] at this
        exact this

/-- C2: in a session that starts freshly created and in which every call of
video_frame obtains a sample and a non-null image (caps events may come in between),
after each pull exactly one image is live and it is the one in `last_frame`; the first
pull destroys no image and releases no sample, and every later pull destroys exactly
the image of the pull before it, once, and releases exactly the sample of the pull
before it, once. -/
theorem session_one_live_frame (has_create has_destroy : Bool) (pipeline sink : Nat)
    (dec0 : decoder) (steps : List Step)
    (hinit : video_init has_create has_destroy pipeline sink = some dec0)
    (hok : ∀ s ∈ run dec0 [] steps, s.samp ≠ 0 ∧ s.frame ≠ 0) :
    (∀ s ∈ run dec0 [] steps,
      s.live = [s.frame] ∧ s.dec.last_frame = s.frame ∧ s.dec.last_samp = s.samp) ∧
    (∀ s ∈ (run dec0 [] steps).head?,
      images_destroyed s.trace = [] ∧ samples_released s.trace = []) ∧
    List.Chain' (fun s t => images_destroyed t.trace = [s.frame] ∧
      samples_released t.trace = [s.samp]) (run dec0 [] steps) := by
  have hfresh : dec0.last_frame = 0 ∧ dec0.last_samp = 0 := by
    unfold video_init at hinit
    split at hinit
    · exact absurd hinit (by simp)
    · simp only [Option.some.injEq] at hinit
      subst hinit
      exact ⟨rfl, rfl⟩
  have hci : current_image dec0 = [] := by simp [current_image, hfresh.1]
  have hcs : current_sample dec0 = [] := by simp [current_sample, hfresh.2]
  have h := run_invariant steps dec0 [] hci.symm hok
  rw [hci, hcs] at h
  exact h

/-- The theorem session_one_live_frame at a session of three successful pulls (images
42, 43, 42 of the samples 13, 16, 15) with a renegotiation before the third. -/
theorem session_one_live_frame_witness :
    (∀ s ∈ run dec_fresh [] steps_three_pulls,
      s.live = [s.frame] ∧ s.dec.last_frame = s.frame ∧ s.dec.last_samp = s.samp) ∧
    (∀ s ∈ (run dec_fresh [] steps_three_pulls).head?,
      images_destroyed s.trace = [] ∧ samples_released s.trace = []) ∧
    List.Chain' (fun s t => images_destroyed t.trace = [s.frame] ∧
      samples_released t.trace = [s.samp]) (run dec_fresh [] steps_three_pulls) :=
  session_one_live_frame true true 1 2 dec_fresh steps_three_pulls rfl (by decide)

/-! ## C7, C8: the unsupported buffer, and the number of copies -/

/-- The image and the array stores of buffer_to_image depend on the session only
through `info` and `format`. -/
theorem buffer_to_image_congr (dec dec1 : decoder) (sys : Sys) (buf : GstBuffer)
    (hi : dec1.info = dec.info) (hf : dec1.format = dec.format) :
    (buffer_to_image dec1 sys buf).image = (buffer_to_image dec sys buf).image ∧
    (buffer_to_image dec1 sys buf).planes = (buffer_to_image dec sys buf).planes ∧
    (buffer_to_image dec1 sys buf).attr = (buffer_to_image dec sys buf).attr := by
  by_cases hm : gst_buffer_n_memory buf > 1 ∧
      gst_is_dmabuf_memory (gst_buffer_peek_memory buf 0) = true
  · rw [buffer_to_image_multiple_dmabuf dec sys buf hm.1 hm.2,
      buffer_to_image_multiple_dmabuf dec1 sys buf hm.1 hm.2]
    exact ⟨rfl, rfl, rfl⟩
  · by_cases hfd : (obtain_dmabuf_fd sys buf).1 < 0
    · rw [buffer_to_image_no_fd dec sys buf hm hfd, buffer_to_image_no_fd dec1 sys buf hm hfd]
      exact ⟨rfl, rfl, rfl⟩
    · rw [buffer_to_image_import dec sys buf hm hfd, buffer_to_image_import dec1 sys buf hm hfd,
        hi, hf]
      exact ⟨rfl, rfl, rfl⟩

/-- A call of video_frame writes only `last_frame`, `last_samp` and `frame`. -/
theorem video_frame_session_fields (dec : decoder) (p : Pull) :
    (video_frame dec p).dec.pipeline = dec.pipeline ∧
    (video_frame dec p).dec.sink = dec.sink ∧
    (video_frame dec p).dec.info = dec.info ∧
    (video_frame dec p).dec.format = dec.format := by
  by_cases hs : p.samp.ptr = 0
  · simp [video_frame, hs]
  · simp [video_frame, hs, set_last_frame]

/-- The number of copies during a call of buffer_to_image: none when block 0 is DMA-BUF
memory, one otherwise. -/
theorem buffer_to_image_copy_count (dec : decoder) (sys : Sys) (buf : GstBuffer) :
    copy_count (buffer_to_image dec sys buf).trace =
      if gst_is_dmabuf_memory (gst_buffer_peek_memory buf 0) = true then 0 else 1 := by
  by_cases hm : gst_buffer_n_memory buf > 1 ∧
      gst_is_dmabuf_memory (gst_buffer_peek_memory buf 0) = true
  · rw [buffer_to_image_multiple_dmabuf dec sys buf hm.1 hm.2, if_pos hm.2]
    rfl
  · by_cases hfd : (obtain_dmabuf_fd sys buf).1 < 0
    · rw [buffer_to_image_no_fd dec sys buf hm hfd]
      rcases obtain_dmabuf_fd_trace sys buf with ⟨hd, h⟩ | ⟨hd, h⟩ <;>
        simp [h, hd, copy_count, is_copy, List.countP_cons]
    · rw [buffer_to_image_import dec sys buf hm hfd]
      rcases obtain_dmabuf_fd_trace sys buf with ⟨hd, h⟩ | ⟨hd, h⟩ <;>
        by_cases hz : dec.frame = 0 <;>
        simp [h, hd, hz, copy_count, is_copy, List.countP_cons, List.countP_append,
          countP_cleanup]

/-- The function set_last_frame copies nothing. -/
theorem set_last_frame_copy_count (dec : decoder) (frame : EGLImage) (samp : Nat) :
    copy_count (set_last_frame dec frame samp).2 = 0 := by
  by_cases h1 : dec.last_frame = 0 <;> by_cases h2 : dec.last_samp = 0 <;>
    simp [set_last_frame, copy_count, is_copy, List.countP_cons, h1, h2]

/-- C7: for a buffer of more than one memory block whose first block is DMA-BUF memory,
buffer_to_image returns EGL_NO_IMAGE_KHR and its only call is the GST_FIXME log: no
`dup`, no copy, no eglCreateImageKHR. video_frame on a sample with that buffer returns
the null image and leaves pipeline, sink, negotiated info and format tag as they were,
so that the next pull returns the image buffer_to_image gives for that negotiated
format. -/
theorem multiple_dmabuf_pull (dec : decoder) (p : Pull)
    (hn : gst_buffer_n_memory p.samp.buffer > 1)
    (hd : gst_is_dmabuf_memory (gst_buffer_peek_memory p.samp.buffer 0) = true) :
    (buffer_to_image dec p.sys p.samp.buffer).image = EGL_NO_IMAGE_KHR ∧
    (buffer_to_image dec p.sys p.samp.buffer).trace = [Effect.gst_fixme_multiple_dmabuf] ∧
    dup_count (buffer_to_image dec p.sys p.samp.buffer).trace = 0 ∧
    copy_count (buffer_to_image dec p.sys p.samp.buffer).trace = 0 ∧
    image_creations (buffer_to_image dec p.sys p.samp.buffer).trace = [] ∧
    (video_frame dec p).frame = EGL_NO_IMAGE_KHR ∧
    dup_count (video_frame dec p).trace = 0 ∧
    copy_count (video_frame dec p).trace = 0 ∧
    image_creations (video_frame dec p).trace = [] ∧
    (video_frame dec p).dec.pipeline = dec.pipeline ∧
    (video_frame dec p).dec.sink = dec.sink ∧
    (video_frame dec p).dec.info = dec.info ∧
    (video_frame dec p).dec.format = dec.format ∧
    ∀ q : Pull, q.samp.ptr ≠ 0 →
      (video_frame (video_frame dec p).dec q).frame =
        (buffer_to_image dec q.sys q.samp.buffer).image := by
  have hb := buffer_to_image_multiple_dmabuf dec p.sys p.samp.buffer hn hd
  have hfl := video_frame_session_fields dec p
  have htr : dup_count (video_frame dec p).trace = 0 ∧
      copy_count (video_frame dec p).trace = 0 ∧
      image_creations (video_frame dec p).trace = [] := by
    by_cases hs : p.samp.ptr = 0
    · simp [video_frame, hs, dup_count, copy_count, image_creations, is_dup, is_copy,
        created_image]
    · by_cases h1 : dec.last_frame = 0 <;> by_cases h2 : dec.last_samp = 0 <;>
        simp [video_frame, hs, hb, set_last_frame, dup_count, copy_count, image_creations,
          is_dup, is_copy, created_image, List.countP_cons, h1, h2]
  have hfr : (video_frame dec p).frame = EGL_NO_IMAGE_KHR := by
    by_cases hs : p.samp.ptr = 0
    · simp [video_frame, hs, EGL_NO_IMAGE_KHR]
    · rw [(video_frame_swap dec p hs).1, hb]
  refine ⟨by rw [hb], by rw [hb], by rw [hb]; rfl, by rw [hb]; rfl, by rw [hb]; rfl, hfr,
    htr.1, htr.2.1, htr.2.2, hfl.1, hfl.2.1, hfl.2.2.1, hfl.2.2.2, ?_⟩
  intro q hq
  rw [(video_frame_swap (video_frame dec p).dec q hq).1]
  exact (buffer_to_image_congr dec (video_frame dec p).dec q.sys q.samp.buffer
    hfl.2.2.1 hfl.2.2.2).1

/-- The theorem multiple_dmabuf_pull at a session that negotiated NV12, for a pull of
a sample with two DMA-BUF blocks. -/
theorem multiple_dmabuf_pull_witness :
    (video_frame dec_nv12_holding pull_two_dmabuf).frame = EGL_NO_IMAGE_KHR ∧
    image_creations (video_frame dec_nv12_holding pull_two_dmabuf).trace = [] ∧
    (video_frame dec_nv12_holding pull_two_dmabuf).dec.info = info_nv12_640x480 ∧
    (video_frame (video_frame dec_nv12_holding pull_two_dmabuf).dec pull_dmabuf).frame = 42 :=
  have h := multiple_dmabuf_pull dec_nv12_holding pull_two_dmabuf (by decide) (by decide)
  ⟨h.2.2.2.2.2.1, h.2.2.2.2.2.2.2.2.1, h.2.2.2.2.2.2.2.2.2.2.2.1,
   h.2.2.2.2.2.2.2.2.2.2.2.2.2 pull_dmabuf (by decide)⟩

/-- C8: during a pull that obtains a sample, the CPU copy of buf_to_fd is invoked 0
times when the buffer is a single block of DMA-BUF memory, and exactly once when the
buffer's memory is not DMA-BUF memory. -/
theorem pull_copy_count (dec : decoder) (p : Pull) (hs : p.samp.ptr ≠ 0) :
    (gst_buffer_n_memory p.samp.buffer = 1 →
      gst_is_dmabuf_memory (gst_buffer_peek_memory p.samp.buffer 0) = true →
      copy_count (video_frame dec p).trace = 0) ∧
    (gst_is_dmabuf_memory (gst_buffer_peek_memory p.samp.buffer 0) = false →
      copy_count (video_frame dec p).trace = 1) := by
  have hc : copy_count (video_frame dec p).trace =
      copy_count (buffer_to_image dec p.sys p.samp.buffer).trace := by
    have h0 := set_last_frame_copy_count dec (buffer_to_image dec p.sys p.samp.buffer).image
      p.samp.ptr
    simp only [copy_count] at h0
    simp [video_frame, hs, copy_count, List.countP_append, h0]
  rw [hc, buffer_to_image_copy_count]
  constructor
  · intro _ hd
    simp [hd]
  · intro hd
    simp [hd]

/-- The theorem pull_copy_count at a session that negotiated NV12: no copy for the pull
of a single DMA-BUF block, one copy for the pull of a block of ordinary memory. -/
theorem pull_copy_count_witness :
    copy_count (video_frame dec_nv12_holding pull_dmabuf).trace = 0 ∧
    copy_count (video_frame dec_nv12_holding pull_sysmem_meta).trace = 1 :=
  ⟨(pull_copy_count dec_nv12_holding pull_dmabuf (by decide)).1 (by decide) (by decide),
   (pull_copy_count dec_nv12_holding pull_sysmem_meta (by decide)).2 (by decide)⟩

/-! ## C5, C6: the plane descriptors and the attribute list -/

/-- A loop that stores `f j` to `a[j]` for every `j` below `n` leaves `f i` in `a[i]`. -/
theorem load_map_range {α : Type} (f : Nat → α) (n i : Nat) (hi : i < n) :
    load ((List.range n).map fun j => ({ idx := j, val := f j } : Store α)) i = some (f i) := by
  induction n with
  | zero => omega
  | succ n ih =>
    simp only [load, List.range_succ, List.map_append, List.map_cons, List.map_nil,
      List.reverse_append, List.reverse_cons, List.reverse_nil, List.nil_append,
      List.singleton_append, List.find?_cons]
    by_cases h : n = i
    · subst h
      simp
    · have hlt : i < n := by omega
      have hne : (n == i) = false := by simpa using h
      simp only [hne]
      exact ih hlt

/-- The descriptors obtained during a call of buffer_to_image that reaches line 434:
exactly the one of obtain_dmabuf_fd. -/
theorem buffer_to_image_fds_obtained (dec : decoder) (sys : Sys) (buf : GstBuffer)
    (hm : ¬ (gst_buffer_n_memory buf > 1 ∧
      gst_is_dmabuf_memory (gst_buffer_peek_memory buf 0) = true))
    (hfd : ¬ (obtain_dmabuf_fd sys buf).1 < 0) :
    fds_obtained (buffer_to_image dec sys buf).trace = [(obtain_dmabuf_fd sys buf).1] := by
  rw [buffer_to_image_import dec sys buf hm hfd]
  have h0 : 0 ≤ (obtain_dmabuf_fd sys buf).1 := not_lt.mp hfd
  rcases obtain_dmabuf_fd_trace sys buf with ⟨_, h⟩ | ⟨_, h⟩ <;>
    by_cases hz : dec.frame = 0 <;>
    simp [h, hz, h0, fds_obtained, obtained_fd, List.filterMap_append, filterMap_cleanup]

/-- C5: for a negotiated format of 1 to 3 planes and a buffer that reaches the
construction of the descriptors (it is not the unsupported multi-block DMA-BUF case and
a descriptor was obtained), the loop stores exactly the entries below the plane count;
with a video meta entry `i` holds the offset and stride of the meta, whatever the
negotiated info says; without one it holds the plane offset and plane stride of the
negotiated info; in both cases its fd is the one descriptor obtained during the call. -/
theorem plane_descriptors (dec : decoder) (sys : Sys) (buf : GstBuffer)
    (_hn1 : 1 ≤ GST_VIDEO_INFO_N_PLANES dec.info) (_hn3 : GST_VIDEO_INFO_N_PLANES dec.info ≤ 3)
    (hm : ¬ (gst_buffer_n_memory buf > 1 ∧
      gst_is_dmabuf_memory (gst_buffer_peek_memory buf 0) = true))
    (hfd : ¬ (obtain_dmabuf_fd sys buf).1 < 0) :
    fds_obtained (buffer_to_image dec sys buf).trace = [(obtain_dmabuf_fd sys buf).1] ∧
    (buffer_to_image dec sys buf).planes.map Store.idx
      = List.range (GST_VIDEO_INFO_N_PLANES dec.info) ∧
    ∀ i, i < GST_VIDEO_INFO_N_PLANES dec.info →
      (∀ m, gst_buffer_get_video_meta buf = some m →
        load (buffer_to_image dec sys buf).planes i =
          some { fd := (obtain_dmabuf_fd sys buf).1, offset := m.offset.getD i 0,
                 stride := m.stride.getD i 0 }) ∧
      (gst_buffer_get_video_meta buf = none →
        load (buffer_to_image dec sys buf).planes i =
          some { fd := (obtain_dmabuf_fd sys buf).1,
                 offset := GST_VIDEO_INFO_PLANE_OFFSET dec.info i,
                 stride := GST_VIDEO_INFO_PLANE_STRIDE dec.info i }) := by
  refine ⟨buffer_to_image_fds_obtained dec sys buf hm hfd, ?_, ?_⟩
  · rw [buffer_to_image_import dec sys buf hm hfd]
    cases hv : buf.video_meta <;>
      simp [fill_planes, GST_VIDEO_INFO_N_PLANES, List.map_map, Function.comp_def]
  · intro i hi
    rw [buffer_to_image_import dec sys buf hm hfd]
    simp only [GST_VIDEO_INFO_N_PLANES] at hi
    constructor
    · intro m hmeta
      simp only [gst_buffer_get_video_meta] at hmeta
      simp only [hmeta, fill_planes]
      exact load_map_range _ _ i hi
    · intro hmeta
      simp only [gst_buffer_get_video_meta] at hmeta
      simp only [hmeta, fill_planes]
      exact load_map_range _ _ i hi

/-- The theorem plane_descriptors at a session that negotiated NV12 at 640 x 480: for a
copied buffer with a video meta the second descriptor has the offset and stride of the
meta (329728, 704), not those of the negotiated info (307200, 640); for a DMA-BUF
buffer without meta it has those of the negotiated info. -/
theorem plane_descriptors_witness :
    load (buffer_to_image dec_nv12_holding sys_ok buf_sysmem_meta).planes 1
      = some { fd := 8, offset := 329728, stride := 704 } ∧
    load (buffer_to_image dec_nv12_holding sys_ok buf_dmabuf).planes 1
      = some { fd := 7, offset := 307200, stride := 640 } :=
  ⟨((plane_descriptors dec_nv12_holding sys_ok buf_sysmem_meta (by decide) (by decide)
      (by decide) (by decide)).2.2 1 (by decide)).1
      { offset := [0, 329728, 0, 0], stride := [704, 704, 0, 0] } rfl,
   ((plane_descriptors dec_nv12_holding sys_ok buf_dmabuf (by decide) (by decide)
      (by decide) (by decide)).2.2 1 (by decide)).2 rfl⟩

/-- The initialiser of `attr[]`, written out: 25 entries. -/
theorem attr_init_eq (width height : Int) (format : Nat) :
    attr_init width height format =
      [EGL_WIDTH, width, EGL_HEIGHT, height, EGL_LINUX_DRM_FOURCC_EXT, (format : Int),
       0, 0, 0, 0, 0, 0, 0, 0, 0, 0, 0, 0, 0, 0, 0, 0, 0, 0, 0] := rfl

/-- For 1 to 3 planes the array `attr[]` after the loop and the terminator is the list
of the specification, followed by the zeros the initialiser left. -/
theorem apply_stores_fill_attr (width height : Int) (format : Nat)
    (planes : List (Store Plane)) (n : Nat) (hn1 : 1 ≤ n) (hn3 : n ≤ 3) :
    apply_stores (attr_init width height format) (fill_attr planes n) =
      expected_attr width height format ((List.range n).map (plane_at planes))
        ++ List.replicate (6 * (MAX_NUM_PLANES - n)) 0 := by
  rw [attr_init_eq]
  interval_cases n
  · simp [apply_stores, fill_attr, expected_attr, plane_triple, plane_fd_name,
      plane_offset_name, plane_pitch_name, egl_dmabuf_plane_fd_attr,
      egl_dmabuf_plane_offset_attr, egl_dmabuf_plane_pitch_attr, MAX_NUM_PLANES,
      List.range_succ, List.replicate]
  · simp [apply_stores, fill_attr, expected_attr, plane_triple, plane_fd_name,
      plane_offset_name, plane_pitch_name, egl_dmabuf_plane_fd_attr,
      egl_dmabuf_plane_offset_attr, egl_dmabuf_plane_pitch_attr, MAX_NUM_PLANES,
      List.range_succ, List.replicate]
  · simp [apply_stores, fill_attr, expected_attr, plane_triple, plane_fd_name,
      plane_offset_name, plane_pitch_name, egl_dmabuf_plane_fd_attr,
      egl_dmabuf_plane_offset_attr, egl_dmabuf_plane_pitch_attr, MAX_NUM_PLANES,
      List.range_succ, List.replicate]

/-- The list of the specification for `n` planes has `6 + 6 * n + 1` entries, the last
of them `EGL_NONE`. -/
theorem expected_attr_shape (width height : Int) (format : Nat) (descs : List Plane) :
    (expected_attr width height format descs).length = 6 + 6 * descs.length + 1 ∧
    (expected_attr width height format descs)[6 + 6 * descs.length]? = some EGL_NONE := by
  have hlen : (((List.range descs.length).map
      fun i => plane_triple i (descs.getD i ⟨0, 0, 0⟩)).flatten).length = 6 * descs.length := by
    simp [List.length_flatten, plane_triple, Function.comp_def, Nat.mul_comm]
  constructor
  · simp only [expected_attr, List.length_append, hlen]
    simp
  · simp only [expected_attr]
    rw [List.getElem?_append_right (by simp only [List.length_append, hlen]; simp)]
    simp only [List.length_append, hlen]
    simp

/-- A call of buffer_to_image that reaches line 488 calls eglCreateImageKHR once, with
the array `attr[]`, and returns what that call returns. -/
theorem buffer_to_image_creations (dec : decoder) (sys : Sys) (buf : GstBuffer)
    (hm : ¬ (gst_buffer_n_memory buf > 1 ∧
      gst_is_dmabuf_memory (gst_buffer_peek_memory buf 0) = true))
    (hfd : ¬ (obtain_dmabuf_fd sys buf).1 < 0) :
    image_creations (buffer_to_image dec sys buf).trace =
      [(apply_stores (attr_init dec.info.width dec.info.height dec.format)
          (fill_attr (buffer_to_image dec sys buf).planes dec.info.n_planes),
        (buffer_to_image dec sys buf).image)] := by
  rw [buffer_to_image_import dec sys buf hm hfd]
  rcases obtain_dmabuf_fd_trace sys buf with ⟨_, h⟩ | ⟨_, h⟩ <;>
    by_cases hz : dec.frame = 0 <;>
    simp [h, hz, image_creations, created_image, List.filterMap_append, filterMap_cleanup]

/-- C6: for a negotiated plane count n in 1..3, buffer_to_image calls eglCreateImageKHR
once, with the list EGL_WIDTH, width, EGL_HEIGHT, height, EGL_LINUX_DRM_FOURCC_EXT,
`dec->format`, then for each plane i below n, in order, the name of its fd attribute
and `planes[i].fd`, the name of its offset attribute and `planes[i].offset`, the name
of its pitch attribute and `planes[i].stride`, then EGL_NONE at index `6 + 6 * n`; the
rest of the array holds the zeros of the initialiser, no plane entry. In particular,
after a caps event that negotiates I420 (three planes) at 1920 x 1080 the list has
width 1920, height 1080, fourcc DRM_FORMAT_YUV420 and exactly three plane triples. -/
theorem attr_list :
    (∀ (dec : decoder) (sys : Sys) (buf : GstBuffer),
      1 ≤ GST_VIDEO_INFO_N_PLANES dec.info → GST_VIDEO_INFO_N_PLANES dec.info ≤ 3 →
      ¬ (gst_buffer_n_memory buf > 1 ∧
        gst_is_dmabuf_memory (gst_buffer_peek_memory buf 0) = true) →
      ¬ (obtain_dmabuf_fd sys buf).1 < 0 →
      image_creations (buffer_to_image dec sys buf).trace =
        [(expected_attr (GST_VIDEO_INFO_WIDTH dec.info) (GST_VIDEO_INFO_HEIGHT dec.info)
            dec.format
            ((List.range (GST_VIDEO_INFO_N_PLANES dec.info)).map
              (plane_at (buffer_to_image dec sys buf).planes))
          ++ List.replicate (6 * (MAX_NUM_PLANES - GST_VIDEO_INFO_N_PLANES dec.info)) 0,
          (buffer_to_image dec sys buf).image)] ∧
      (expected_attr (GST_VIDEO_INFO_WIDTH dec.info) (GST_VIDEO_INFO_HEIGHT dec.info)
          dec.format
          ((List.range (GST_VIDEO_INFO_N_PLANES dec.info)).map
            (plane_at (buffer_to_image dec sys buf).planes)))[
          6 + 6 * GST_VIDEO_INFO_N_PLANES dec.info]? = some EGL_NONE ∧
      (expected_attr (GST_VIDEO_INFO_WIDTH dec.info) (GST_VIDEO_INFO_HEIGHT dec.info)
          dec.format
          ((List.range (GST_VIDEO_INFO_N_PLANES dec.info)).map
            (plane_at (buffer_to_image dec sys buf).planes))).length
        = 6 + 6 * GST_VIDEO_INFO_N_PLANES dec.info + 1) ∧
    (∀ (dec : decoder) (caps : GstCaps) (ni : GstVideoInfo) (sys : Sys) (buf : GstBuffer),
      gst_video_info_from_caps dec.info caps = (true, ni) →
      ni.format = GstVideoFormat.I420 → ni.n_planes = 3 →
      ni.width = 1920 → ni.height = 1080 →
      ¬ (gst_buffer_n_memory buf > 1 ∧
        gst_is_dmabuf_memory (gst_buffer_peek_memory buf 0) = true) →
      ¬ (obtain_dmabuf_fd sys buf).1 < 0 →
      image_creations
          (buffer_to_image (pad_probe dec (GstEvent.caps (some caps))).1 sys buf).trace =
        [([EGL_WIDTH, 1920, EGL_HEIGHT, 1080, EGL_LINUX_DRM_FOURCC_EXT, DRM_FORMAT_YUV420,
           EGL_DMA_BUF_PLANE0_FD_EXT,
           (plane_at (buffer_to_image (pad_probe dec (GstEvent.caps (some caps))).1
             sys buf).planes 0).fd,
           EGL_DMA_BUF_PLANE0_OFFSET_EXT,
           (plane_at (buffer_to_image (pad_probe dec (GstEvent.caps (some caps))).1
             sys buf).planes 0).offset,
           EGL_DMA_BUF_PLANE0_PITCH_EXT,
           (plane_at (buffer_to_image (pad_probe dec (GstEvent.caps (some caps))).1
             sys buf).planes 0).stride,
           EGL_DMA_BUF_PLANE1_FD_EXT,
           (plane_at (buffer_to_image (pad_probe dec (GstEvent.caps (some caps))).1
             sys buf).planes 1).fd,
           EGL_DMA_BUF_PLANE1_OFFSET_EXT,
           (plane_at (buffer_to_image (pad_probe dec (GstEvent.caps (some caps))).1
             sys buf).planes 1).offset,
           EGL_DMA_BUF_PLANE1_PITCH_EXT,
           (plane_at (buffer_to_image (pad_probe dec (GstEvent.caps (some caps))).1
             sys buf).planes 1).stride,
           EGL_DMA_BUF_PLANE2_FD_EXT,
           (plane_at (buffer_to_image (pad_probe dec (GstEvent.caps (some caps))).1
             sys buf).planes 2).fd,
           EGL_DMA_BUF_PLANE2_OFFSET_EXT,
           (plane_at (buffer_to_image (pad_probe dec (GstEvent.caps (some caps))).1
             sys buf).planes 2).offset,
           EGL_DMA_BUF_PLANE2_PITCH_EXT,
           (plane_at (buffer_to_image (pad_probe dec (GstEvent.caps (some caps))).1
             sys buf).planes 2).stride,
           EGL_NONE],
          (buffer_to_image (pad_probe dec (GstEvent.caps (some caps))).1 sys buf).image)]) := by
  have general : ∀ (dec : decoder) (sys : Sys) (buf : GstBuffer),
      1 ≤ dec.info.n_planes → dec.info.n_planes ≤ 3 →
      ¬ (gst_buffer_n_memory buf > 1 ∧
        gst_is_dmabuf_memory (gst_buffer_peek_memory buf 0) = true) →
      ¬ (obtain_dmabuf_fd sys buf).1 < 0 →
      image_creations (buffer_to_image dec sys buf).trace =
        [(expected_attr dec.info.width dec.info.height dec.format
            ((List.range dec.info.n_planes).map
              (plane_at (buffer_to_image dec sys buf).planes))
          ++ List.replicate (6 * (MAX_NUM_PLANES - dec.info.n_planes)) 0,
          (buffer_to_image dec sys buf).image)] := by
    intro dec sys buf hn1 hn3 hm hfd
    rw [buffer_to_image_creations dec sys buf hm hfd,
      apply_stores_fill_attr _ _ _ _ _ hn1 hn3]
  constructor
  · intro dec sys buf hn1 hn3 hm hfd
    simp only [GST_VIDEO_INFO_N_PLANES, GST_VIDEO_INFO_WIDTH, GST_VIDEO_INFO_HEIGHT] at hn1 hn3 ⊢
    have hs := expected_attr_shape dec.info.width dec.info.height dec.format
      ((List.range dec.info.n_planes).map (plane_at (buffer_to_image dec sys buf).planes))
    simp only [List.length_map, List.length_range] at hs
    exact ⟨general dec sys buf hn1 hn3 hm hfd, hs.2, hs.1⟩
  · intro dec caps ni sys buf hparse hfmt hnp hw hh hm hfd
    have hdec : (pad_probe dec (GstEvent.caps (some caps))).1 =
        { dec with info := ni, format := DRM_FORMAT_YUV420 } := by
      simp [pad_probe, hparse, GST_VIDEO_INFO_FORMAT, hfmt]
    have hi : (pad_probe dec (GstEvent.caps (some caps))).1.info = ni := by rw [hdec]
    have hf : (pad_probe dec (GstEvent.caps (some caps))).1.format = DRM_FORMAT_YUV420 := by
      rw [hdec]
    have h := general (pad_probe dec (GstEvent.caps (some caps))).1 sys buf
      (by rw [hi, hnp]; decide) (by rw [hi, hnp]) hm hfd
    rw [h, hi, hf, hnp, hw, hh]
    simp [expected_attr, plane_triple, plane_fd_name, plane_offset_name, plane_pitch_name,
      MAX_NUM_PLANES, List.range_succ]

/-- The theorem attr_list at a freshly created session that negotiates I420 at
1920 x 1080 and imports a single DMA-BUF block (`dup` gives descriptor 7): the list
passed to eglCreateImageKHR, with the three format constants written out. -/
theorem attr_list_witness :
    image_creations (buffer_to_image
        (pad_probe dec_fresh (GstEvent.caps (some (caps_of info_i420_1920x1080)))).1
        sys_ok buf_dmabuf).trace =
      [([EGL_WIDTH, 1920, EGL_HEIGHT, 1080, EGL_LINUX_DRM_FOURCC_EXT, DRM_FORMAT_YUV420,
         EGL_DMA_BUF_PLANE0_FD_EXT, 7, EGL_DMA_BUF_PLANE0_OFFSET_EXT, 0,
         EGL_DMA_BUF_PLANE0_PITCH_EXT, 1920,
         EGL_DMA_BUF_PLANE1_FD_EXT, 7, EGL_DMA_BUF_PLANE1_OFFSET_EXT, 2073600,
         EGL_DMA_BUF_PLANE1_PITCH_EXT, 960,
         EGL_DMA_BUF_PLANE2_FD_EXT, 7, EGL_DMA_BUF_PLANE2_OFFSET_EXT, 2592000,
         EGL_DMA_BUF_PLANE2_PITCH_EXT, 960,
         EGL_NONE], 42)] :=
  attr_list.2 dec_fresh (caps_of info_i420_1920x1080) info_i420_1920x1080 sys_ok buf_dmabuf
    rfl rfl rfl rfl rfl (by decide) (by decide)

/-! ## C4, C10: the cleanup loop and the bound on the plane count -/

/-- With a single memory block and at least one negotiated plane, a call of
buffer_to_image that obtains a descriptor closes it once and closes nothing else. -/
theorem buffer_to_image_single_block_closes_once (dec : decoder) (sys : Sys) (buf : GstBuffer)
    (hn : gst_buffer_n_memory buf = 1) (hp : 1 ≤ GST_VIDEO_INFO_N_PLANES dec.info)
    (hfd : ¬ (obtain_dmabuf_fd sys buf).1 < 0) :
    fds_obtained (buffer_to_image dec sys buf).trace = [(obtain_dmabuf_fd sys buf).1] ∧
    fds_closed (buffer_to_image dec sys buf).trace = [some (obtain_dmabuf_fd sys buf).1] := by
  have hm : ¬ (gst_buffer_n_memory buf > 1 ∧
      gst_is_dmabuf_memory (gst_buffer_peek_memory buf 0) = true) := by
    rw [hn]
    simp
  refine ⟨buffer_to_image_fds_obtained dec sys buf hm hfd, ?_⟩
  have h0 : 0 < dec.info.n_planes := hp
  have hl : (load (fill_planes dec.info buf.video_meta dec.info.n_planes
      (obtain_dmabuf_fd sys buf).1) 0).map Plane.fd = some (obtain_dmabuf_fd sys buf).1 := by
    cases hv : buf.video_meta <;>
      simp only [fill_planes] <;>
      rw [load_map_range _ _ 0 h0] <;>
      rfl
  rw [buffer_to_image_import dec sys buf hm hfd, hn]
  rcases obtain_dmabuf_fd_trace sys buf with ⟨_, h⟩ | ⟨_, h⟩ <;>
    by_cases hz : dec.frame = 0 <;>
    simp [h, hz, hl, fds_closed, closed_fd, List.filterMap_append, List.range_succ]

/-- C4 fails on the code. A buffer of two blocks of ordinary memory is copied into one
GBM buffer, whose descriptor 8 is the only one obtained. With NV12 negotiated (two
planes) the cleanup loop, which runs over the memory blocks, closes descriptor 8 twice;
with YUY2 negotiated (one plane) it closes descriptor 8 and then `planes[1].fd`, an
entry that was never stored. -/
theorem buffer_to_image_cleanup_two_blocks :
    gst_buffer_n_memory buf_two_sysmem = 2 ∧
    GST_VIDEO_INFO_N_PLANES dec_nv12_holding.info = 2 ∧
    fds_obtained (buffer_to_image dec_nv12_holding sys_ok buf_two_sysmem).trace = [8] ∧
    fds_closed (buffer_to_image dec_nv12_holding sys_ok buf_two_sysmem).trace
      = [some 8, some 8] ∧
    GST_VIDEO_INFO_N_PLANES dec_yuy2_holding.info = 1 ∧
    fds_obtained (buffer_to_image dec_yuy2_holding sys_ok buf_two_sysmem).trace = [8] ∧
    fds_closed (buffer_to_image dec_yuy2_holding sys_ok buf_two_sysmem).trace
      = [some 8, none] := by
  decide

/-- C10 fails on the code. A freshly created session sees a caps event whose caps parse
into A420, a format of four planes that pad_probe does not know; `dec->info` then has
plane count 4, and the next call of buffer_to_image stores to `planes[3]`, past the
MAX_NUM_PLANES entries of the array, and to `attr[25]` up to `attr[30]`, past its
`6 + 6 * MAX_NUM_PLANES + 1` entries. -/
theorem buffer_to_image_four_planes :
    (gst_video_info_from_caps dec_fresh.info (caps_of info_a420_64x64)).1 = true ∧
    GST_VIDEO_INFO_N_PLANES
      (pad_probe dec_fresh (GstEvent.caps (some (caps_of info_a420_64x64)))).1.info = 4 ∧
    (buffer_to_image (pad_probe dec_fresh (GstEvent.caps (some (caps_of info_a420_64x64)))).1
      sys_ok buf_dmabuf).planes.map Store.idx = [0, 1, 2, 3] ∧
    ¬ (∀ s ∈ (buffer_to_image
        (pad_probe dec_fresh (GstEvent.caps (some (caps_of info_a420_64x64)))).1
        sys_ok buf_dmabuf).planes, s.idx < MAX_NUM_PLANES) ∧
    (buffer_to_image (pad_probe dec_fresh (GstEvent.caps (some (caps_of info_a420_64x64)))).1
      sys_ok buf_dmabuf).attr.map Store.idx
      = [6, 7, 8, 9, 10, 11, 12, 13, 14, 15, 16, 17, 18, 19, 20, 21, 22, 23,
         24, 25, 26, 27, 28, 29, 30] ∧
    ¬ (∀ s ∈ (buffer_to_image
        (pad_probe dec_fresh (GstEvent.caps (some (caps_of info_a420_64x64)))).1
        sys_ok buf_dmabuf).attr, s.idx ≤ 6 + 6 * MAX_NUM_PLANES) := by
  decide

/-! ## C11: the stream summary -/

/-- The number of snapshots of a run is the number of its pulls. -/
theorem run_length (steps : List Step) : ∀ (dec : decoder) (live : List EGLImage),
    (run dec live steps).length = pull_count steps := by
  induction steps with
  | nil => intro _ _; rfl
  | cons st rest ih =>
    intro dec live
    cases st with
    | event e => simpa [run, pull_count] using ih _ _
    | pull p => simp [run, pull_count, ih]

/-- The summary and the calls of eglCreateImageKHR during buffer_to_image: the summary
is printed once when the frame counter is 0 and the call gets as far as
eglCreateImageKHR, and not at all otherwise. -/
theorem buffer_to_image_summary (dec : decoder) (sys : Sys) (buf : GstBuffer) :
    summary_count (buffer_to_image dec sys buf).trace =
      if dec.frame = 0 ∧ image_creations (buffer_to_image dec sys buf).trace ≠ [] then 1
      else 0 := by
  by_cases hm : gst_buffer_n_memory buf > 1 ∧
      gst_is_dmabuf_memory (gst_buffer_peek_memory buf 0) = true
  · rw [buffer_to_image_multiple_dmabuf dec sys buf hm.1 hm.2]
    simp [summary_count, is_summary, image_creations, created_image]
  · by_cases hfd : (obtain_dmabuf_fd sys buf).1 < 0
    · rw [buffer_to_image_no_fd dec sys buf hm hfd]
      rcases obtain_dmabuf_fd_trace sys buf with ⟨_, h⟩ | ⟨_, h⟩ <;>
        simp [h, summary_count, is_summary, image_creations, created_image,
          List.countP_cons]
    · rw [buffer_to_image_creations dec sys buf hm hfd, buffer_to_image_import dec sys buf hm hfd]
      rcases obtain_dmabuf_fd_trace sys buf with ⟨_, h⟩ | ⟨_, h⟩ <;>
        by_cases hz : dec.frame = 0 <;>
        simp [h, hz, summary_count, is_summary, List.countP_cons, List.countP_append,
          countP_cleanup]

/-- The summary, the calls of eglCreateImageKHR and the frame counter over one call of
video_frame that obtains a sample. -/
theorem video_frame_summary (dec : decoder) (p : Pull) (hs : p.samp.ptr ≠ 0) :
    summary_count (video_frame dec p).trace =
      (if dec.frame = 0 ∧ image_creations (video_frame dec p).trace ≠ [] then 1 else 0) ∧
    (video_frame dec p).dec.frame = (dec.frame + 1) % 2 ^ 32 := by
  have hsl : summary_count (set_last_frame dec
      (buffer_to_image dec p.sys p.samp.buffer).image p.samp.ptr).2 = 0 ∧
      image_creations (set_last_frame dec
        (buffer_to_image dec p.sys p.samp.buffer).image p.samp.ptr).2 = [] := by
    by_cases h1 : dec.last_frame = 0 <;> by_cases h2 : dec.last_samp = 0 <;>
      simp [set_last_frame, summary_count, is_summary, image_creations, created_image,
        List.countP_cons, h1, h2]
  have hb := buffer_to_image_summary dec p.sys p.samp.buffer
  simp only [summary_count, image_creations] at hsl hb
  constructor
  · simp only [video_frame, if_neg hs, summary_count, image_creations, List.countP_append,
      List.filterMap_append, hsl.1, hsl.2, List.append_nil, Nat.add_zero]
    exact hb
  · simp [video_frame, hs, set_last_frame]

/-- Once the frame counter is positive it stays positive until it wraps, and no pull
prints the summary. -/
theorem run_no_summary (steps : List Step) : ∀ (dec : decoder) (live : List EGLImage),
    0 < dec.frame → dec.frame + pull_count steps ≤ 2 ^ 32 →
    ∀ s ∈ run dec live steps, summary_count s.trace = 0 := by
  induction steps with
  | nil =>
    intro dec live _ _ s hmem
    simp [run] at hmem
  | cons st rest ih =>
    intro dec live hpos hle s hmem
    cases st with
    | event e =>
      have hf := (pad_probe_frame_fields dec e).2.2.1
      simp only [run] at hmem
      simp only [pull_count] at hle
      exact ih (pad_probe dec e).1 live (by rw [hf]; exact hpos) (by rw [hf]; exact hle) s hmem
    | pull p =>
      simp only [run] at hmem
      simp only [pull_count] at hle
      rcases List.mem_cons.mp hmem with rfl | hmem
      · by_cases hs : p.samp.ptr = 0
        · simp [video_frame, hs, summary_count, is_summary]
        · have h := (video_frame_summary dec p hs).1
          have hne : dec.frame ≠ 0 := Nat.pos_iff_ne_zero.mp hpos
          simp only [h, hne, false_and, if_false]
      · have hlen := run_length rest (video_frame dec p).dec
          (live_images live (video_frame dec p).trace)
        have hrest : 0 < pull_count rest := by
          rw [← hlen]
          exact List.length_pos_of_mem hmem
        by_cases hs : p.samp.ptr = 0
        · have hd : (video_frame dec p).dec = dec := by simp [video_frame, hs]
          exact ih _ _ (by rw [hd]; exact hpos) (by rw [hd]; omega) s hmem
        · have hfr := (video_frame_summary dec p hs).2
          have hlt : dec.frame + 1 < 2 ^ 32 := by omega
          rw [Nat.mod_eq_of_lt hlt] at hfr
          exact ih _ _ (by rw [hfr]; omega) (by rw [hfr]; omega) s hmem

/-- While the frame counter is 0, the pulls print the summary as
summary_by_first_sample says. -/
theorem run_summary (steps : List Step) : ∀ (dec : decoder) (live : List EGLImage),
    dec.frame = 0 → pull_count steps < 2 ^ 32 →
    (run dec live steps).map (fun s => summary_count s.trace)
      = summary_by_first_sample (run dec live steps) := by
  induction steps with
  | nil =>
    intro dec live _ _
    rfl
  | cons st rest ih =>
    intro dec live hz hlt
    cases st with
    | event e =>
      have hf := (pad_probe_frame_fields dec e).2.2.1
      simp only [pull_count] at hlt
      simp only [run]
      exact ih (pad_probe dec e).1 live (by rw [hf]; exact hz) hlt
    | pull p =>
      simp only [pull_count] at hlt
      simp only [run, List.map_cons, summary_by_first_sample]
      by_cases hs : p.samp.ptr = 0
      · have hd : (video_frame dec p).dec = dec := by simp [video_frame, hs]
        have h0 : summary_count (video_frame dec p).trace = 0 := by
          simp [video_frame, hs, summary_count, is_summary]
        rw [if_pos hs, h0, ih _ _ (by rw [hd]; exact hz) (by omega)]
      · have h := video_frame_summary dec p hs
        have hfr : (video_frame dec p).dec.frame = 1 := by
          rw [h.2, hz]
          rfl
        have hrest := run_no_summary rest (video_frame dec p).dec
          (live_images live (video_frame dec p).trace) (by rw [hfr]; decide)
          (by rw [hfr]; omega)
        rw [if_neg hs, h.1]
        congr 1
        · by_cases hc : image_creations (video_frame dec p).trace = [] <;> simp [hc, hz]
        · exact List.map_congr_left hrest

/-- The numbers of summary_by_first_sample add up to at most one. -/
theorem summary_by_first_sample_sum (l : List Snapshot) :
    (summary_by_first_sample l).sum ≤ 1 := by
  induction l with
  | nil => simp [summary_by_first_sample]
  | cons s rest ih =>
    have hzero : (rest.map fun _ => 0).sum = 0 := by
      induction rest with
      | nil => rfl
      | cons a r _ => simp
    simp only [summary_by_first_sample]
    by_cases hs : s.samp = 0
    · simpa [hs] using ih
    · by_cases hc : image_creations s.trace = [] <;> simp [hs, hc, hzero]

/-- C11, as the code has it: in a session that starts freshly created and has fewer
than 2^32 pulls, the stream summary is printed at most once. It is printed during the
first pull that obtains a sample, if that pull gets as far as calling
eglCreateImageKHR (whether or not the call then returns an image), and during no other
pull. -/
theorem summary_once (has_create has_destroy : Bool) (pipeline sink : Nat)
    (dec0 : decoder) (steps : List Step)
    (hinit : video_init has_create has_destroy pipeline sink = some dec0)
    (hn : pull_count steps < 2 ^ 32) :
    (run dec0 [] steps).map (fun s => summary_count s.trace)
      = summary_by_first_sample (run dec0 [] steps) ∧
    ((run dec0 [] steps).map (fun s => summary_count s.trace)).sum ≤ 1 := by
  have hz : dec0.frame = 0 := by
    unfold video_init at hinit
    split at hinit
    · exact absurd hinit (by simp)
    · simp only [Option.some.injEq] at hinit
      subst hinit
      rfl
  have h := run_summary steps dec0 [] hz hn
  exact ⟨h, by rw [h]; exact summary_by_first_sample_sum _⟩

/-- The theorem summary_once at a session of three successful pulls: the summary is
printed during the first pull and not during the second and third. -/
theorem summary_once_witness :
    (run dec_fresh [] steps_three_pulls).map (fun s => summary_count s.trace) = [1, 0, 0] ∧
    ((run dec_fresh [] steps_three_pulls).map (fun s => summary_count s.trace)).sum ≤ 1 :=
  summary_once true true 1 2 dec_fresh steps_three_pulls rfl (by decide)

/-- C11 as stated fails. In a session whose first sample has two DMA-BUF blocks (no
image) and whose second sample is imported (image 42), the summary is never printed,
although a frame was imported. In a session in which eglCreateImageKHR fails for the
first sample and the second sample is imported, the summary is printed during the first
pull, which imports no frame, and not during the second, which produces the first
imported frame. -/
theorem summary_not_at_first_import :
    (run dec_fresh [] steps_first_pull_unsupported).map
        (fun s => (s.frame, summary_count s.trace)) = [(0, 0), (42, 0)] ∧
    (run dec_fresh [] steps_first_pull_egl_fails).map
        (fun s => (s.frame, summary_count s.trace)) = [(0, 1), (42, 0)] := by
  decide

/-! ## C12: the element tuner -/

/-- C12, as the code has it: element_added_cb sets capture-io-mode to dmabuf (and
prints the element name) exactly when the factory name begins with "v4l2video" and ends
with "dec"; for every other factory name the element is left untouched. Every name of
the form v4l2videoNdec, N one or more decimal digits, begins and ends so. -/
theorem element_added_cb_sets (element : GstElement) :
    (("v4l2video".toList <+: element.factory_name.toList ∧
        "dec".toList <:+ element.factory_name.toList) →
      element_added_cb element =
        (gst_util_set_object_arg element "capture-io-mode" "dmabuf", [element.name]) ∧
      object_arg (element_added_cb element).1 "capture-io-mode" = some "dmabuf") ∧
    (¬ ("v4l2video".toList <+: element.factory_name.toList ∧
        "dec".toList <:+ element.factory_name.toList) →
      element_added_cb element = (element, [])) ∧
    (is_v4l2videoNdec element.factory_name →
      "v4l2video".toList <+: element.factory_name.toList ∧
        "dec".toList <:+ element.factory_name.toList) := by
  refine ⟨?_, ?_, ?_⟩
  · intro h
    have hc : ( g_str_has_prefix (gst_plugin_feature_get_name element) "v4l2video" &&
        g_str_has_suffix (gst_plugin_feature_get_name element) "dec") = true := by
      simpa [gst_plugin_feature_get_name, g_str_has_suffix, g_str_has_prefix] using h
    have he : element_added_cb element =
        (gst_util_set_object_arg element "capture-io-mode" "dmabuf", [element.name]) := by
      simp only [element_added_cb, if_pos hc, GST_OBJECT_NAME]
    refine ⟨he, ?_⟩
    rw [he]
    simp [object_arg, gst_util_set_object_arg, List.lookup]
  · intro h
    have hc : ¬ ( g_str_has_prefix (gst_plugin_feature_get_name element) "v4l2video" &&
        g_str_has_suffix (gst_plugin_feature_get_name element) "dec") = true := by
      simpa [gst_plugin_feature_get_name, g_str_has_suffix, g_str_has_prefix] using h
    simp only [element_added_cb, if_neg hc]
  · rintro ⟨digits, _, _, h⟩
    rw [h]
    exact ⟨⟨digits ++ "dec".toList, by simp⟩, ⟨"v4l2video".toList ++ digits, rfl⟩⟩

/-- The theorem element_added_cb_sets at an element of the factory v4l2video0dec, which
gets capture-io-mode dmabuf, and at an element of the factory avdec_h264, which is left
untouched. -/
theorem element_added_cb_sets_witness :
    object_arg (element_added_cb element_v4l2video0dec).1 "capture-io-mode" = some "dmabuf" ∧
    element_added_cb element_avdec_h264 = (element_avdec_h264, []) :=
  ⟨((element_added_cb_sets element_v4l2video0dec).1 (by decide)).2,
   (element_added_cb_sets element_avdec_h264).2.1 (by decide)⟩

/-- C12 as stated fails: the factory names v4l2video0h264dec and v4l2videodec are not of
the form v4l2videoNdec (the first has the letter h between "v4l2video" and "dec", the
second has no digit), yet element_added_cb sets capture-io-mode to dmabuf on their
elements. -/
theorem element_added_cb_sets_without_digits :
    ¬ is_v4l2videoNdec element_v4l2video0h264dec.factory_name ∧
    object_arg (element_added_cb element_v4l2video0h264dec).1 "capture-io-mode"
      = some "dmabuf" ∧
    element_v4l2video0h264dec.args = [] ∧
    ¬ is_v4l2videoNdec element_v4l2videodec.factory_name ∧
    object_arg (element_added_cb element_v4l2videodec).1 "capture-io-mode" = some "dmabuf" ∧
    element_v4l2videodec.args = [] := by
  refine ⟨?_, by decide, rfl, ?_, by decide, rfl⟩
  · rintro ⟨d, _, hd, h⟩
    have h1 : element_v4l2video0h264dec.factory_name.toList =
        "v4l2video".toList ++ "0h264".toList ++ "dec".toList := by decide
    rw [h1] at h
    have h3 := List.append_cancel_left (List.append_cancel_right h)
    have hh := hd 'h' (by rw [← h3]; decide)
    revert hh
    decide
  · rintro ⟨d, hne, _, h⟩
    have h1 : element_v4l2videodec.factory_name.toList =
        "v4l2video".toList ++ [] ++ "dec".toList := by decide
    rw [h1] at h
    exact hne (List.append_cancel_left (List.append_cancel_right h)).symm

/-- The frame counter is a C `unsigned`: from 2^32 - 1 a pull takes it back to 0, and the
pull after that prints the summary again. -/
theorem frame_counter_wraps :
    (video_frame { dec_nv12_holding with frame := 2 ^ 32 - 1 } pull_dmabuf).dec.frame = 0 ∧
    summary_count (video_frame
      (video_frame { dec_nv12_holding with frame := 2 ^ 32 - 1 } pull_dmabuf).dec
      pull_dmabuf).trace = 1 := by
  decide

end GstDecoder
